import Mathlib

/-!
Verification development for the meeting-recorder chunk pipeline.

The definitions below are a shallow embedding of the Python Lambda handlers
under `src/processing/lambdas/`.  DynamoDB tables are modelled as association
lists keyed by the same strings the source uses; DynamoDB `put_item` and
`update_item` are modelled by `put_item` / `setk` below; Python dict values
travelling through Lambda events are modelled by the `Json` inductive.
External services (S3 reachability, Step Functions, Transcribe, Bedrock and
the Python `json.loads` of bodies coming back from them) are inputs of each
handler, mirroring the boto3 calls of the source.
-/

namespace MeetingRecorder

/-- JSON-like values as carried in Lambda events, Step Functions payloads and
DynamoDB attribute maps.  Numbers are modelled as integers (the source only
handles chunk indices, counts and status codes). -/
inductive Json where
  | null
  | bool (b : Bool)
  | num (n : Int)
  | str (s : String)
  | arr (elems : List Json)
  | obj (fields : List (String × Json))

/-- Python truthiness (`if not x`) for the values modelled by `Json`. -/
def Json.truthy : Json → Bool
  | .null => false
  | .bool b => b
  | .num n => n != 0
  | .str s => s ≠ ""
  | .arr xs => ¬xs.isEmpty
  | .obj fs => ¬fs.isEmpty

/-- `dict.get(k)`: first value stored under key `k` (keys are unique in the
dicts the source builds, so first = only). -/
def getk {α : Type} : List (String × α) → String → Option α
  | [], _ => none
  | (k', v) :: rest, k => if k' = k then some v else getk rest k

/-- `d[k] = v` on a Python dict / a single-attribute DynamoDB `update_item`:
replace the value under `k` if the key is present, otherwise append the new
key (Python dicts keep insertion order). -/
def setk {α : Type} (m : List (String × α)) (k : String) (v : α) : List (String × α) :=
  if m.any (fun p => p.1 = k) then
    m.map (fun p => if p.1 = k then (k, v) else p)
  else
    m ++ [(k, v)]

/-! ## Segment Registry data model

One row of the DynamoDB chunks table, as written by
`src/processing/lambdas/chunk_upload_handler/handler.py` (`record_chunk`).
The table key is `(recordingId, chunkIndex)`. -/

structure ChunkRow where
  recordingId : String
  chunkIndex : Nat
  userId : String
  s3Key : String
  bucketName : String
  fileSize : Int
  etag : String
  uploadedAt : String
  status : String
  retryCount : Nat
  ttl : Nat
deriving DecidableEq, Repr

/-- Two chunk rows collide iff they agree on the table key `(recordingId, chunkIndex)`. -/
def ChunkRow.sameKey (r item : ChunkRow) : Bool :=
  r.recordingId = item.recordingId ∧ r.chunkIndex = item.chunkIndex

/-- DynamoDB `put_item`: replaces the whole item stored under the key of
`item` when one exists, otherwise inserts.  (This is an unconditional write:
the source uses no `ConditionExpression` here.) -/
def put_item (t : List ChunkRow) (item : ChunkRow) : List ChunkRow :=
  if t.any (fun r => r.sameKey item) then
    t.map (fun r => if r.sameKey item then item else r)
  else
    t ++ [item]

namespace ChunkUpload

/-- The fields of the `chunk_metadata` dict that `lambda_handler` assembles
from `parse_s3_key` plus the EventBridge detail before calling `record_chunk`. -/
structure ChunkMetadata where
  user_id : String
  recording_id : String
  chunk_index : Nat
  s3_key : String
  bucket_name : String
  file_size : Int
  etag : String
  uploaded_at : String
deriving DecidableEq, Repr

/-- `record_chunk`: builds the DynamoDB item (status `validated`, retryCount 0,
ttl = now + 30 days in epoch seconds) and writes it with an unconditional
`put_item`.  `nowSeconds` stands for `datetime.utcnow().timestamp()`. -/
def record_chunk (nowSeconds : Nat) (t : List ChunkRow) (m : ChunkMetadata) : List ChunkRow :=
  put_item t
    { recordingId := m.recording_id
      chunkIndex := m.chunk_index
      userId := m.user_id
      s3Key := m.s3_key
      bucketName := m.bucket_name
      fileSize := m.file_size
      etag := m.etag
      uploadedAt := m.uploaded_at
      status := "validated"
      retryCount := 0
      ttl := nowSeconds + 30 * 24 * 60 * 60 }

/-! ### The S3 key pattern

The source matches `re.match(r'users/(.+)/chunks/(.+)/chunk_(\d{3})\.mp4', key)`.
`re.match` anchors at the start only (a prefix match), `.` matches every
character except a newline, `.+` is greedy with backtracking (longest
successful group first).  The matcher below implements exactly that pattern:
`findSomeRev` tries group lengths from the longest downward, which is the
backtracking order of the Python regex engine. -/

/-- Python `.` (no DOTALL): any character except a newline. -/
def dotChar (c : Char) : Bool := c ≠ '\n'

/-- Match a literal pattern at the head of the input, returning the rest. -/
def stripPre : List Char → List Char → Option (List Char)
  | [], s => some s
  | _ :: _, [] => none
  | p :: ps, c :: cs => if c = p then stripPre ps cs else none

/-- Numeric value of a decimal digit character (Python `int` on the group).
Modelling note: CPython's `\d` (and `int`) also accept non-ASCII Unicode
decimal digits; the model restricts to the ASCII digits that the producer's
`chunk_{index:03d}` formatting emits. -/
def digitVal (c : Char) : Nat := c.toNat - '0'.toNat

/-- Try to match `(.+)/chunk_(\d{3})\.mp4` against `l` with the first group
taking exactly `rlen` characters; the trailing input after `.mp4` is ignored
because `re.match` only requires a prefix match. -/
def matchGroup2 (l : List Char) (rlen : Nat) : Option (List Char × Nat) :=
  let r := l.take rlen
  let rest := l.drop rlen
  if 1 ≤ rlen ∧ r.all dotChar then
    match stripPre "/chunk_".data rest with
    | some rest2 =>
      match rest2 with
      | d1 :: d2 :: d3 :: rest3 =>
        if d1.isDigit ∧ d2.isDigit ∧ d3.isDigit then
          match stripPre ".mp4".data rest3 with
          | some _ => some (r, 100 * digitVal d1 + 10 * digitVal d2 + digitVal d3)
          | none => none
        else none
      | _ => none
    | none => none
  else none

/-- Backtracking search: try `f n, f (n-1), …, f 1` and return the first hit.
This is the greedy order in which the regex engine tries `.+` group lengths. -/
def findSomeRev {α : Type} (f : Nat → Option α) : Nat → Option α
  | 0 => none
  | n + 1 =>
    match f (n + 1) with
    | some v => some v
    | none => findSomeRev f n

/-- Try to match `(.+)/chunks/(.+)/chunk_(\d{3})\.mp4` against `l` with the
first group taking exactly `ulen` characters. -/
def matchGroup1 (l : List Char) (ulen : Nat) : Option (List Char × List Char × Nat) :=
  let u := l.take ulen
  let rest := l.drop ulen
  if 1 ≤ ulen ∧ u.all dotChar then
    match stripPre "/chunks/".data rest with
    | some rest2 =>
      match findSomeRev (matchGroup2 rest2) rest2.length with
      | some (r, d) => some (u, r, d)
      | none => none
    | none => none
  else none

/-- `re.match(S3_KEY_PATTERN, l)`: the pattern anchored at the start of `l`. -/
def regexMatchKey (l : List Char) : Option (List Char × List Char × Nat) :=
  match stripPre "users/".data l with
  | some rest => findSomeRev (matchGroup1 rest) rest.length
  | none => none

/-- `parse_s3_key`: extract `(user_id, recording_id, chunk_index)` from the key,
or `None` when the pattern does not match. -/
def parse_s3_key (s3_key : String) : Option (String × String × Nat) :=
  match regexMatchKey s3_key.data with
  | some (u, r, d) => some (String.mk u, String.mk r, d)
  | none => none

/-- `validate_chunk`: rejects `file_size <= 0`, then requires the S3 object to
be reachable (`head_object`, an external check provided by the environment). -/
def validate_chunk (s3HeadOk : Bool) (file_size : Int) : Bool :=
  if file_size ≤ 0 then false else s3HeadOk

/-- Environment of one chunk-upload invocation: the wall clock and the outcome
of the boto3 calls the handler makes. -/
structure Env where
  nowSeconds : Nat
  nowIso : String
  s3HeadOk : Bool
  detectorInvokeOk : Bool
deriving DecidableEq, Repr

/-- State visible to the chunk-upload handler: the chunks table plus the log of
async invocations of the Session Completion Detector (payload
`(recordingId, userId)`). -/
structure State where
  chunks : List ChunkRow
  detectorInvocations : List (String × String)
deriving DecidableEq, Repr

/-- The EventBridge S3 event, reduced to the fields the handler reads. -/
structure UploadEvent where
  bucketName : String
  objectKey : Option String
  objectSize : Int
  etag : String
  eventTime : Option String
deriving DecidableEq, Repr

structure HandlerResult where
  statusCode : Int
  body : String
deriving DecidableEq, Repr

/-- `lambda_handler` of the Chunk Intake Listener.  Returns the new state and
the HTTP-style response dict.  A malformed key is logged and answered with
status 200 (the notification is dropped, not retried); validation failure
answers 400; otherwise the chunk is recorded and the Completion Detector is
invoked asynchronously (an invoke failure is logged and swallowed). -/
def lambda_handler (env : Env) (s : State) (event : UploadEvent) :
    State × HandlerResult :=
  match event.objectKey with
  | none => (s, ⟨200, "No S3 key"⟩)
  | some s3_key =>
    if s3_key = "" then (s, ⟨200, "No S3 key"⟩)
    else
      match parse_s3_key s3_key with
      | none => (s, ⟨200, "Invalid key format"⟩)
      | some (user_id, recording_id, chunk_index) =>
        let m : ChunkMetadata :=
          { user_id := user_id
            recording_id := recording_id
            chunk_index := chunk_index
            s3_key := s3_key
            bucket_name := event.bucketName
            file_size := event.objectSize
            etag := event.etag
            uploaded_at := event.eventTime.getD env.nowIso }
        if validate_chunk env.s3HeadOk m.file_size = false then
          (s, ⟨400, "Validation failed"⟩)
        else
          let chunks' := record_chunk env.nowSeconds s.chunks m
          let dets :=
            if env.detectorInvokeOk then
              s.detectorInvocations ++ [(recording_id, user_id)]
            else s.detectorInvocations
          (⟨chunks', dets⟩, ⟨200, "Chunk processed"⟩)

end ChunkUpload

/-! ## Session Catalog data model

One row of the meetings table (`pk = f'{user_id}#{recording_id}'`,
`sk = 'METADATA'`; the sort key is constant so the table is keyed by `pk`
alone here).  DynamoDB is schemaless; the fields below are the attributes the
embedded handlers read or write.  `statusMetadata` keeps the metadata map
structurally (the source stores each value as its `json.dumps` string, an
injective encoding of the values used). -/

structure MeetingItem where
  expectedChunkCount : Option Nat := none
  status : Option String := none
  statusMetadata : Option (List (String × Json)) := none
  processingExecutionArn : Option String := none
  updatedAt : Option String := none
  completedAt : Option String := none
  pipelineVersion : Option String := none

namespace SessionCompletionDetector

/-- The input payload of one `start_execution` call
(`execution_input` in `trigger_processing`). -/
structure ExecutionInput where
  recordingId : String
  userId : String
  chunkCount : Nat
  triggeredAt : String

/-- One Step Functions execution as started by the detector:
its name `f"{recording_id}_{int(timestamp)}"` and its input. -/
structure Execution where
  name : String
  input : ExecutionInput

/-- State shared by detector invocations: the meetings table, the chunks
table, and the set of Step Functions executions started so far. -/
structure DetState where
  meetings : List (String × MeetingItem)
  chunks : List ChunkRow
  executions : List Execution

/-- Environment of one detector invocation: configuration
(`PROCESSING_STATE_MACHINE_ARN`), the wall clock, and the outcome of the two
boto3 calls inside `trigger_processing` (either may raise). -/
structure DetEnv where
  stateMachineArn : String
  nowIso : String
  nowTs : Nat
  executionArn : String
  startExecutionFails : Bool := false
  arnPersistFails : Bool := false
  errorMsg : String := ""

/-- The event payload `{'recordingId': …, 'userId': …}` sent by
`check_session_completion`; `none` models a missing key. -/
structure DetEvent where
  recordingId : Option String
  userId : Option String

def pkOf (user_id recording_id : String) : String :=
  user_id ++ "#" ++ recording_id

/-- `get_expected_chunk_count`: `get_item` on the meetings table keyed by
`pk = f'{user_id}#{recording_id}'`, projecting `expectedChunkCount`;
`None` when the item or the attribute is absent. -/
def get_expected_chunk_count (meetings : List (String × MeetingItem))
    (recording_id user_id : String) : Option Nat :=
  match getk meetings (pkOf user_id recording_id) with
  | some item => item.expectedChunkCount
  | none => none

/-- `count_uploaded_chunks`: query the chunks table with
`KeyConditionExpression 'recordingId = :rid'` (note: no tenant in the key),
keep items whose `status` is `'validated'`, return the sorted index list.
The pagination loop of the source is the traversal of all matching items. -/
def count_uploaded_chunks (chunks : List ChunkRow) (recording_id : String) : List Nat :=
  List.insertionSort (· ≤ ·)
    ((chunks.filter (fun c => c.recordingId = recording_id ∧ c.status = "validated")).map
      (fun c => c.chunkIndex))

/-- `detect_missing_chunks`: `sorted(set(range(expected_count)) - set(uploaded))`.
`List.range` is ascending and duplicate-free, so filtering it is exactly the
sorted set difference. -/
def detect_missing_chunks (uploaded_indices : List Nat) (expected_count : Nat) : List Nat :=
  (List.range expected_count).filter (fun i => i ∉ uploaded_indices)

/-- `update_session_status`: an **unconditional** `update_item` on the
meetings table setting `status` and `updatedAt`, plus `statusMetadata` when a
(truthy) metadata dict is passed.  DynamoDB creates the item when the key is
absent.  There is no `ConditionExpression`: any current status is overwritten. -/
def update_session_status (env : DetEnv) (s : DetState)
    (recording_id user_id status_value : String)
    (metadata : Option (List (String × Json)) := none) : DetState :=
  let pk := pkOf user_id recording_id
  let base := (getk s.meetings pk).getD {}
  let newMeta :=
    match metadata with
    | some m => if m.isEmpty then base.statusMetadata else some m
    | none => base.statusMetadata
  { s with
    meetings := setk s.meetings pk
      { base with
        status := some status_value
        updatedAt := some env.nowIso
        statusMetadata := newMeta } }

/-- `trigger_processing`: when the state-machine ARN is unset, log a warning
and return (leaving the session as it was); otherwise `start_execution` and
persist the returned execution ARN.  If either boto3 call raises, the
exception handler sets the status to `processing_trigger_failed` with the
error recorded, and does not re-raise. -/
def trigger_processing (env : DetEnv) (s : DetState)
    (recording_id user_id : String) (chunk_count : Nat) : DetState :=
  if env.stateMachineArn = "" then s
  else if env.startExecutionFails then
    update_session_status env s recording_id user_id "processing_trigger_failed"
      (some [("error", Json.str env.errorMsg)])
  else
    let exec : Execution :=
      { name := recording_id ++ "_" ++ toString env.nowTs
        input :=
          { recordingId := recording_id
            userId := user_id
            chunkCount := chunk_count
            triggeredAt := env.nowIso } }
    let s1 := { s with executions := s.executions ++ [exec] }
    if env.arnPersistFails then
      update_session_status env s1 recording_id user_id "processing_trigger_failed"
        (some [("error", Json.str env.errorMsg)])
    else
      let pk := pkOf user_id recording_id
      let base := (getk s1.meetings pk).getD {}
      { s1 with
        meetings := setk s1.meetings pk { base with processingExecutionArn := some env.executionArn } }

/-- JSON list of chunk indices, as placed in the response and the status
metadata. -/
def natsJson (l : List Nat) : Json :=
  Json.arr (l.map (fun i => Json.num i))

/-- `lambda_handler` of the Session Completion Detector.  Returns the new
shared state and the response dict. -/
def lambda_handler (env : DetEnv) (s : DetState) (event : DetEvent) :
    DetState × List (String × Json) :=
  let recording_id := event.recordingId.getD ""
  let user_id := event.userId.getD ""
  if recording_id = "" ∨ user_id = "" then
    (s, [("statusCode", .num 400), ("body", .str "Missing required fields")])
  else
    match get_expected_chunk_count s.meetings recording_id user_id with
    | none =>
      (s, [("statusCode", .num 200), ("body", .str "Recording in progress"),
           ("complete", .bool false)])
    | some expected_chunks =>
      let uploaded_chunks := count_uploaded_chunks s.chunks recording_id
      let missing_indices := detect_missing_chunks uploaded_chunks expected_chunks
      if missing_indices ≠ [] then
        let s' := update_session_status env s recording_id user_id "incomplete_chunks"
          (some [("missing_chunk_indices", natsJson missing_indices)])
        (s', [("statusCode", .num 200), ("body", .str "Missing chunks detected"),
              ("complete", .bool false),
              ("missing_chunks", natsJson missing_indices)])
      else if uploaded_chunks.length = expected_chunks then
        let s1 := update_session_status env s recording_id user_id "ready_for_processing"
        let s2 := trigger_processing env s1 recording_id user_id expected_chunks
        (s2, [("statusCode", .num 200), ("body", .str "Session complete, processing triggered"),
              ("complete", .bool true), ("chunk_count", .num expected_chunks)])
      else
        (s, [("statusCode", .num 200), ("body", .str "Session not yet complete"),
             ("complete", .bool false), ("uploaded", .num uploaded_chunks.length),
             ("expected", .num expected_chunks)])

/-- Run a sequence of detector invocations one after the other on the shared
state (one completely serialized schedule of N independent invocations). -/
def runSeq (envs : List DetEnv) (event : DetEvent) (s : DetState) : DetState :=
  match envs with
  | [] => s
  | e :: rest => runSeq rest event (lambda_handler e s event).1

end SessionCompletionDetector

/-! ## Stage adapters of the Step Functions pipeline -/

namespace CheckTranscribeStatus

/-- Outcome of `get_transcription_job` as seen by the handler: the job record,
a `BadRequestException` (job not found), or another `ClientError`. -/
inductive JobLookup where
  | ok (jobStatus : String) (transcriptFileUri : Option String) (failureReason : Option String)
  | badRequest (message : String)
  | otherClientError (message : String)

/-- `lambda_handler` of `check_transcribe_status`.  On success it returns
`event.copy()` updated with `transcription_status` and, depending on the job
state, `transcript_uri` or `failure_reason`; missing required input fields and
non-BadRequest AWS errors raise. -/
def lambda_handler (job : JobLookup) (event : List (String × Json)) :
    Except String (List (String × Json)) :=
  if ¬((getk event "transcription_job_name").elim false Json.truthy) then
    .error "Missing transcription_job_name in event"
  else if ¬((getk event "recording_id").elim false Json.truthy) then
    .error "Missing recording_id in event"
  else
    match job with
    | .ok jobStatus transcriptFileUri failureReason =>
      let updated_event := setk event "transcription_status" (.str jobStatus)
      if jobStatus = "COMPLETED" then
        match transcriptFileUri with
        | some uri =>
          if uri = "" then .ok updated_event
          else .ok (setk updated_event "transcript_uri" (.str uri))
        | none => .ok updated_event
      else if jobStatus = "FAILED" then
        .ok (setk updated_event "failure_reason"
          (.str (failureReason.getD "Unknown failure")))
      else
        .ok updated_event
    | .badRequest message =>
      let updated_event := setk event "transcription_status" (.str "FAILED")
      .ok (setk updated_event "failure_reason" (.str ("Job not found: " ++ message)))
    | .otherClientError message =>
      .error ("AWS Transcribe error: " ++ message)

end CheckTranscribeStatus

namespace BedrockSummarize

/-- Read a field value as a Python string (events carry string ids here). -/
def fieldStr (event : List (String × Json)) (k : String) : Option String :=
  match getk event k with
  | some (Json.str s) => some s
  | _ => none

/-- `extract_s3_key_from_uri`: strip `s3://`, split once on `/`
(`s3_uri[5:].split('/', 1)`), return the key part; raises `ValueError` when
the URI does not start with `s3://` or has no `/` after the bucket. -/
def extract_s3_key_from_uri (s3_uri : String) : Except String String :=
  match ChunkUpload.stripPre "s3://".data s3_uri.data with
  | some rest =>
    if rest.contains '/' then
      .ok (String.mk ((rest.dropWhile (fun c => c ≠ '/')).drop 1))
    else
      .error ("Invalid S3 URI format: " ++ s3_uri)
  | none => .error ("Invalid S3 URI format: " ++ s3_uri)

/-- Python iteration over the value stored under `actions` / `decisions`:
lists iterate their elements, dicts their keys, strings their characters
(1-character strings); other scalars raise `TypeError`. -/
def pyIter : Json → Option (List Json)
  | .arr xs => some xs
  | .obj fs => some (fs.map (fun p => Json.str p.1))
  | .str s => some (s.data.map (fun c => Json.str (String.mk [c])))
  | _ => none

/-- One item check of `validate_summary_structure`:
`isinstance(x, dict) and k1 in x and k2 in x`. -/
def itemOk (k1 k2 : String) : Json → Bool
  | .obj fs => (getk fs k1).isSome ∧ (getk fs k2).isSome
  | _ => false

/-- `validate_summary_structure`: the four required keys must be present
(`in`-membership, not truthiness), every element of `actions` must be a dict
with `id` and `description`, every element of `decisions` a dict with `id`
and `decision`; otherwise `ValueError` (for a non-iterable field the Python
`TypeError` is also an error result, merged here). -/
def validate_summary_structure (fs : List (String × Json)) : Except String Unit :=
  if (getk fs "summary_text").isNone then .error "Missing required field: summary_text"
  else if (getk fs "actions").isNone then .error "Missing required field: actions"
  else if (getk fs "decisions").isNone then .error "Missing required field: decisions"
  else if (getk fs "recording_id").isNone then .error "Missing required field: recording_id"
  else
    match pyIter ((getk fs "actions").getD .null) with
    | none => .error "actions is not iterable"
    | some acts =>
      if acts.all (itemOk "id" "description") then
        match pyIter ((getk fs "decisions").getD .null) with
        | none => .error "decisions is not iterable"
        | some decs =>
          if decs.all (itemOk "id" "decision") then .ok ()
          else .error "Invalid decision structure"
      else .error "Invalid action structure"

/-- Environment of one summarize invocation: outcomes of the S3 download, the
`json.loads` of the transcript body, the Bedrock call, and the `json.loads`
of the model text (`none` = the text is not valid JSON), plus clock/config. -/
structure Env where
  s3GetOk : Bool
  transcriptJson : Option Json
  bedrockOk : Bool
  claudeJson : Option Json
  nowIso : String
  generationId : String
  pipelineVersion : String
  modelId : String

/-- One `put_object` call: bucket, key, body. -/
structure S3Put where
  bucket : String
  key : String
  content : Json

/-- `extract_transcript_text`: `transcript_data['results']['transcripts'][0]['transcript']`;
any lookup failure is an error (`ValueError` for Key/IndexError, `TypeError`
otherwise — both abort the stage). -/
def extract_transcript_text (transcript_data : Json) : Except String Json :=
  match transcript_data with
  | .obj top =>
    match getk top "results" with
    | some (.obj results) =>
      match getk results "transcripts" with
      | some (.arr (first :: _)) =>
        match first with
        | .obj entry =>
          match getk entry "transcript" with
          | some t => .ok t
          | none => .error "Invalid transcript format"
        | _ => .error "Invalid transcript format"
      | _ => .error "Invalid transcript format"
    | _ => .error "Invalid transcript format"
  | _ => .error "Invalid transcript format"

/-- `parse_claude_response`: `json.loads(claude_text.strip())` (given here as
`claudeJson`), then `.update(...)` with the metadata fields, then
`validate_summary_structure`.  Non-JSON model text raises
`ValueError("Invalid JSON from Claude")`; a non-dict JSON value makes
`.update` raise.  No artifact is written on any of these paths. -/
def parse_claude_response (env : Env) (claudeJson : Option Json)
    (recording_id : String) : Except String (List (String × Json)) :=
  match claudeJson with
  | none => .error "Invalid JSON from Claude"
  | some (.obj fs) =>
    let fs1 := setk fs "recording_id" (.str recording_id)
    let fs2 := setk fs1 "pipeline_version" (.str env.pipelineVersion)
    let fs3 := setk fs2 "model_version" (.str env.modelId)
    let fs4 := setk fs3 "generated_at" (.str env.nowIso)
    let fs5 := setk fs4 "generation_id" (.str env.generationId)
    match validate_summary_structure fs5 with
    | .ok _ => .ok fs5
    | .error e => .error e
  | some _ => .error "summary data is not a dict"

/-- `lambda_handler` of `bedrock_summarize`.  Returns the trace of S3
`put_object` calls made during the invocation together with either the output
event (`event.copy()` plus `summary_s3_key`) or the raised error. -/
def lambda_handler (env : Env) (event : List (String × Json)) :
    List S3Put × Except String (List (String × Json)) :=
  match fieldStr event "recording_id", fieldStr event "transcript_uri",
        fieldStr event "user_id", fieldStr event "s3_bucket" with
  | some recording_id, some transcript_uri, some user_id, some s3_bucket =>
    if recording_id = "" ∨ transcript_uri = "" ∨ user_id = "" ∨ s3_bucket = "" then
      ([], .error "Missing required fields")
    else
      match extract_s3_key_from_uri transcript_uri with
      | .error e => ([], .error e)
      | .ok _transcript_s3_key =>
        if ¬env.s3GetOk then ([], .error "Failed to download transcript")
        else
          match env.transcriptJson with
          | none => ([], .error "Failed to parse transcript JSON")
          | some transcript_data =>
            match extract_transcript_text transcript_data with
            | .error e => ([], .error e)
            | .ok _transcript_text =>
              if ¬env.bedrockOk then ([], .error "Bedrock API error")
              else
                match parse_claude_response env env.claudeJson recording_id with
                | .error e => ([], .error e)
                | .ok summary_fields =>
                  let summary_s3_key :=
                    "users/" ++ user_id ++ "/summaries/" ++ recording_id ++ ".json"
                  let put : S3Put :=
                    { bucket := s3_bucket, key := summary_s3_key,
                      content := .obj summary_fields }
                  ([put], .ok (setk event "summary_s3_key" (.str summary_s3_key)))
  | _, _, _, _ => ([], .error "Missing required fields")

end BedrockSummarize

namespace UpdateCatalog

/-- `lambda_handler` of `update_catalog`: an `update_item` conditioned only on
`attribute_exists(PK)` that sets `status='completed'` plus timestamps and the
pipeline version.  The condition does not inspect the current status. -/
def lambda_handler (nowIso pipelineVersion : String)
    (meetings : List (String × MeetingItem)) (event : List (String × Json)) :
    Except String (List (String × MeetingItem) × List (String × Json)) :=
  match getk event "recording_id", getk event "user_id" with
  | some (Json.str recording_id), some (Json.str user_id) =>
    if recording_id = "" ∨ user_id = "" then .error "Missing recording_id or user_id"
    else
      let pk := user_id ++ "#" ++ recording_id
      match getk meetings pk with
      | none => .error "ConditionalCheckFailedException"
      | some item =>
        .ok (setk meetings pk
          { item with
            status := some "completed"
            updatedAt := some nowIso
            completedAt := some nowIso
            pipelineVersion := some pipelineVersion }, event)
  | _, _ => .error "Missing recording_id or user_id"

end UpdateCatalog

/-! ## Shared predicates and concrete fixtures -/

/-- `true` on a successful stage result. -/
def exceptOk {ε α : Type} : Except ε α → Bool
  | .ok _ => true
  | .error _ => false

/-- Invariant of the chunks table: the DynamoDB key `(recordingId, chunkIndex)`
is unique across rows. -/
def ChunkKeysUnique (t : List ChunkRow) : Prop :=
  (t.map (fun c => (c.recordingId, c.chunkIndex))).Nodup

namespace SessionCompletionDetector

/-- A detector environment in which both boto3 calls of `trigger_processing`
succeed and the state-machine ARN is configured. -/
def envOk (e : DetEnv) : Prop :=
  e.stateMachineArn ≠ "" ∧ e.startExecutionFails = false ∧ e.arnPersistFails = false

/-- The session `(user_id, recording_id)` has just reached exact completeness:
the declared count is `k` and the validated indices are exactly `0..k-1`. -/
def SessionJustComplete (s : DetState) (recording_id user_id : String) (k : Nat) : Prop :=
  recording_id ≠ "" ∧ user_id ≠ "" ∧
  get_expected_chunk_count s.meetings recording_id user_id = some k ∧
  count_uploaded_chunks s.chunks recording_id = List.range k

end SessionCompletionDetector

/-- A validated chunk row of session `r1` of tenant `u1`, index 0. -/
def sampleChunkRow : ChunkRow :=
  { recordingId := "r1", chunkIndex := 0, userId := "u1"
    s3Key := "users/u1/chunks/r1/chunk_000.mp4", bucketName := "bkt"
    fileSize := 5, etag := "e0", uploadedAt := "2025-11-15T00:00:00"
    status := "validated", retryCount := 0, ttl := 0 }

namespace SessionCompletionDetector

/-- First healthy invocation environment (second one follows one second later). -/
def okEnv : DetEnv :=
  { stateMachineArn := "arn:states:sm", nowIso := "2025-11-15T00:00:01"
    nowTs := 1, executionArn := "arn:exec:1" }

/-- Second healthy invocation environment. -/
def okEnv2 : DetEnv :=
  { stateMachineArn := "arn:states:sm", nowIso := "2025-11-15T00:00:02"
    nowTs := 2, executionArn := "arn:exec:2" }

/-- Environment with `PROCESSING_STATE_MACHINE_ARN` unset. -/
def noArnEnv : DetEnv :=
  { stateMachineArn := "", nowIso := "2025-11-15T00:00:01", nowTs := 1, executionArn := "" }

/-- Environment in which `start_execution` raises. -/
def startFailEnv : DetEnv :=
  { stateMachineArn := "arn:states:sm", nowIso := "2025-11-15T00:00:01", nowTs := 1
    executionArn := "", startExecutionFails := true, errorMsg := "boom" }

/-- Session `u1/r1` declared with one chunk, exactly chunk 0 validated. -/
def completeOneChunkState : DetState :=
  { meetings := [("u1#r1", { expectedChunkCount := some 1 })]
    chunks := [sampleChunkRow]
    executions := [] }

/-- Same session, already in catalog status `completed` (the pipeline
finished), when a duplicate upload notification triggers a late detector
invocation. -/
def completedStatusState : DetState :=
  { meetings := [("u1#r1", { expectedChunkCount := some 1, status := some "completed" })]
    chunks := [sampleChunkRow]
    executions := [] }

/-- A validated chunk row written by tenant `tenantB` for recording id `r1`. -/
def tenantBRow : ChunkRow :=
  { sampleChunkRow with userId := "tenantB", s3Key := "users/tenantB/chunks/r1/chunk_000.mp4" }

/-- Tenant `tenantA` declared session `r1` with one chunk; the only row in the
chunks table carrying recording id `r1` belongs to tenant `tenantB`. -/
def crossTenantState : DetState :=
  { meetings := [("tenantA#r1", { expectedChunkCount := some 1 })]
    chunks := [tenantBRow]
    executions := [] }

/-- Same catalog, no chunk rows at all. -/
def crossTenantStateNoRows : DetState :=
  { meetings := [("tenantA#r1", { expectedChunkCount := some 1 })]
    chunks := []
    executions := [] }

/-- Session `u1/r1` exists in the catalog but `expectedChunkCount` was never
declared; chunk 0 has already been uploaded and validated. -/
def undeclaredState : DetState :=
  { meetings := [("u1#r1", {})]
    chunks := [sampleChunkRow]
    executions := [] }

/-- Session `u1/r1` declared with `expectedChunkCount = 0` and no uploads. -/
def declaredZeroState : DetState :=
  { meetings := [("u1#r1", { expectedChunkCount := some 0 })]
    chunks := []
    executions := [] }

end SessionCompletionDetector

namespace ChunkUpload

/-- Metadata of the first delivery of `(r1, chunk 0)`. -/
def mFirst : ChunkMetadata :=
  { user_id := "u1", recording_id := "r1", chunk_index := 0
    s3_key := "users/u1/chunks/r1/chunk_000.mp4", bucket_name := "bkt"
    file_size := 100, etag := "etag-original", uploaded_at := "2025-11-15T00:00:00" }

/-- A redelivery of the same `(sessionId, chunkIndex)` carrying conflicting
metadata (different etag and size). -/
def mDup : ChunkMetadata :=
  { user_id := "u1", recording_id := "r1", chunk_index := 0
    s3_key := "users/u1/chunks/r1/chunk_000.mp4", bucket_name := "bkt"
    file_size := 777, etag := "etag-conflicting", uploaded_at := "2025-11-15T00:05:00" }

/-- A healthy chunk-upload environment. -/
def cuEnv : Env :=
  { nowSeconds := 1000, nowIso := "2025-11-15T00:00:00", s3HeadOk := true
    detectorInvokeOk := true }

/-- The etags stored in a chunks table, in row order. -/
def etags (t : List ChunkRow) : List String := t.map (fun r => r.etag)

end ChunkUpload

namespace CheckTranscribeStatus

/-- A poll event carrying an unrelated field `keep_me`. -/
def ctEvent : List (String × Json) :=
  [("transcription_job_name", .str "job1"), ("recording_id", .str "r1"),
   ("user_id", .str "u1"), ("keep_me", .str "v")]

/-- A still-running transcription job. -/
def ctJob : JobLookup := .ok "IN_PROGRESS" none none

/-- The handler output for `ctJob` on `ctEvent`. -/
def ctOut : List (String × Json) :=
  ctEvent ++ [("transcription_status", .str "IN_PROGRESS")]

end CheckTranscribeStatus

namespace BedrockSummarize

/-- A summarize event carrying an unrelated field `keep_me`. -/
def bsEvent : List (String × Json) :=
  [("recording_id", .str "r1"), ("transcript_uri", .str "s3://bkt/transcripts/r1.json"),
   ("user_id", .str "u1"), ("s3_bucket", .str "bkt"), ("keep_me", .str "v")]

/-- A well-formed AWS Transcribe output body. -/
def goodTranscript : Json :=
  .obj [("results", .obj [("transcripts", .arr [.obj [("transcript", .str "hello world")]])])]

/-- A well-formed model summary. -/
def goodSummary : Json :=
  .obj [("summary_text", .str "s"), ("actions", .arr []), ("decisions", .arr [])]

/-- Environment in which every external call succeeds. -/
def bsEnvOk : Env :=
  { s3GetOk := true, transcriptJson := some goodTranscript, bedrockOk := true
    claudeJson := some goodSummary, nowIso := "2025-11-15T01:00:00"
    generationId := "gen-1", pipelineVersion := "1.0.0", modelId := "model-1" }

/-- Same environment, but the model text is not valid JSON. -/
def bsEnvBadJson : Env := { bsEnvOk with claudeJson := none }

/-- The summary object the handler uploads for `bsEnvOk` on `bsEvent`. -/
def bsSummaryFields : List (String × Json) :=
  [("summary_text", .str "s"), ("actions", .arr []), ("decisions", .arr []),
   ("recording_id", .str "r1"), ("pipeline_version", .str "1.0.0"),
   ("model_version", .str "model-1"), ("generated_at", .str "2025-11-15T01:00:00"),
   ("generation_id", .str "gen-1")]

/-- The single `put_object` call the handler makes for `bsEnvOk` on `bsEvent`. -/
def bsPut : S3Put :=
  { bucket := "bkt", key := "users/u1/summaries/r1.json", content := .obj bsSummaryFields }

/-- The handler output event for `bsEnvOk` on `bsEvent`. -/
def bsOut : List (String × Json) :=
  bsEvent ++ [("summary_s3_key", .str "users/u1/summaries/r1.json")]

end BedrockSummarize

/-! ## Theorems -/

theorem getk_none_of_not_any {α : Type} (m : List (String × α)) (k : String)
    (h : m.any (fun p => p.1 = k) = false) : getk m k = none := by
  induction m with
  | nil => rfl
  | cons p rest ih =>
    obtain ⟨a, b⟩ := p
    simp only [List.any_cons, Bool.or_eq_false_iff, decide_eq_false_iff_not] at h
    rw [getk, if_neg h.1]
    exact ih (by simp [h.2])

theorem getk_map_repl_self {α : Type} (m : List (String × α)) (k : String) (v : α)
    (h : m.any (fun p => p.1 = k) = true) :
    getk (m.map (fun p => if p.1 = k then (k, v) else p)) k = some v := by
  induction m with
  | nil => simp at h
  | cons p rest ih =>
    obtain ⟨a, b⟩ := p
    by_cases hp : a = k
    · rw [List.map_cons]
      simp only [if_pos hp]
      rw [getk, if_pos rfl]
    · simp only [List.any_cons, Bool.or_eq_true, decide_eq_true_eq] at h
      have h' : rest.any (fun p => p.1 = k) = true := by
        rcases h with h | h
        · exact absurd h hp
        · exact h
      rw [List.map_cons]
      simp only [if_neg hp]
      rw [getk, if_neg hp]
      exact ih h'

theorem getk_map_repl_ne {α : Type} (m : List (String × α)) (k k' : String) (v : α)
    (h : k' ≠ k) :
    getk (m.map (fun p => if p.1 = k then (k, v) else p)) k' = getk m k' := by
  induction m with
  | nil => rfl
  | cons p rest ih =>
    obtain ⟨a, b⟩ := p
    by_cases hp : a = k
    · have hk' : ¬(k = k') := fun hkk => h hkk.symm
      rw [List.map_cons]
      simp only [if_pos hp]
      rw [getk, if_neg hk', getk, if_neg (hp ▸ hk')]
      exact ih
    · rw [List.map_cons]
      simp only [if_neg hp]
      by_cases hpk : a = k'
      · rw [getk, if_pos hpk, getk, if_pos hpk]
      · rw [getk, if_neg hpk, getk, if_neg hpk]
        exact ih

theorem getk_append_one_ne {α : Type} (m : List (String × α)) (k k' : String) (v : α)
    (h : k' ≠ k) : getk (m ++ [(k, v)]) k' = getk m k' := by
  induction m with
  | nil =>
    have : ¬(k = k') := fun hkk => h hkk.symm
    simp [getk, this]
  | cons p rest ih =>
    obtain ⟨a, b⟩ := p
    by_cases hpk : a = k'
    · rw [List.cons_append, getk, if_pos hpk, getk, if_pos hpk]
    · rw [List.cons_append, getk, if_neg hpk, getk, if_neg hpk]
      exact ih

theorem getk_append_one_self {α : Type} (m : List (String × α)) (k : String) (v : α)
    (h : m.any (fun p => p.1 = k) = false) : getk (m ++ [(k, v)]) k = some v := by
  induction m with
  | nil => simp [getk]
  | cons p rest ih =>
    obtain ⟨a, b⟩ := p
    simp only [List.any_cons, Bool.or_eq_false_iff, decide_eq_false_iff_not] at h
    rw [List.cons_append, getk, if_neg h.1]
    exact ih (by simp [h.2])

@[simp] theorem getk_setk_self {α : Type} (m : List (String × α)) (k : String) (v : α) :
    getk (setk m k v) k = some v := by
  unfold setk
  by_cases h : m.any (fun p => p.1 = k)
  · simp only [h, if_true]
    exact getk_map_repl_self m k v h
  · simp only [h, if_false]
    exact getk_append_one_self m k v (Bool.eq_false_iff.mpr h)

@[simp] theorem getk_setk_ne {α : Type} (m : List (String × α)) (k k' : String) (v : α)
    (h : k' ≠ k) : getk (setk m k v) k' = getk m k' := by
  unfold setk
  by_cases hany : m.any (fun p => p.1 = k)
  · simp only [hany, if_true]
    exact getk_map_repl_ne m k k' v h
  · simp only [hany, if_false]
    exact getk_append_one_ne m k k' v h

theorem sameKey_congr {i1 i2 : ChunkRow} (h1 : i1.recordingId = i2.recordingId)
    (h2 : i1.chunkIndex = i2.chunkIndex) (r : ChunkRow) :
    r.sameKey i1 = r.sameKey i2 := by
  simp [ChunkRow.sameKey, h1, h2]

/-- Absorption of unconditional `put_item` writes under the same table key:
the second write fully determines the row. -/
theorem put_item_absorb (t : List ChunkRow) (i1 i2 : ChunkRow)
    (h1 : i1.recordingId = i2.recordingId) (h2 : i1.chunkIndex = i2.chunkIndex) :
    put_item (put_item t i1) i2 = put_item t i2 := by
  have hkey : ∀ r : ChunkRow, r.sameKey i1 = r.sameKey i2 := sameKey_congr h1 h2
  have hii : i1.sameKey i2 = true := by simp [ChunkRow.sameKey, h1, h2]
  have hanyc : t.any (fun r => r.sameKey i1) = t.any (fun r => r.sameKey i2) := by
    rw [show (fun r : ChunkRow => r.sameKey i1) = (fun r => r.sameKey i2) from funext hkey]
  unfold put_item
  by_cases hany : t.any (fun r => r.sameKey i1) = true
  · have hany2 : t.any (fun r => r.sameKey i2) = true := hanyc ▸ hany
    rw [if_pos hany, if_pos hany2]
    have hmapped : (t.map (fun r => if r.sameKey i1 then i1 else r)).any
        (fun r => r.sameKey i2) = true := by
      rw [List.any_eq_true] at hany ⊢
      obtain ⟨r, hr, hrk⟩ := hany
      refine ⟨i1, ?_, hii⟩
      rw [List.mem_map]
      exact ⟨r, hr, by simp [hrk]⟩
    rw [if_pos hmapped, List.map_map]
    apply List.map_congr_left
    intro r _
    by_cases hrk : r.sameKey i1 = true
    · simp [Function.comp, hrk, hii, ← hkey r]
    · have hrk2 : r.sameKey i2 = false := by
        rw [← hkey r]
        exact Bool.eq_false_iff.mpr hrk
      simp [Function.comp, Bool.eq_false_iff.mp ((hkey r) ▸ hrk2), hrk2]
  · have hany2 : ¬(t.any (fun r => r.sameKey i2) = true) := fun hc => hany (hanyc ▸ hc)
    rw [if_neg hany, if_neg hany2]
    have happ : (t ++ [i1]).any (fun r => r.sameKey i2) = true := by
      rw [List.any_eq_true]
      exact ⟨i1, by simp, hii⟩
    rw [if_pos happ, List.map_append]
    have ht : t.map (fun r => if r.sameKey i2 then i2 else r) = t := by
      have hc : ∀ r ∈ t, (if r.sameKey i2 then i2 else r) = id r := by
        intro r hr
        have : ¬(r.sameKey i2 = true) := by
          intro hc
          exact hany2 (List.any_eq_true.mpr ⟨r, hr, hc⟩)
        simp [this]
      rw [List.map_congr_left hc, List.map_id]
    rw [ht]
    simp [hii]

/-- C3 (corrected): `record_chunk` is an unconditional DynamoDB `put_item`.
Re-invoking for an already-recorded `(sessionId, chunkIndex)` overwrites the
row: a repeat with identical metadata at the same clock reading reproduces the
same registry state, and a redelivery carrying different metadata replaces the
stored attributes entirely (last-write-wins); no `created` flag is computed. -/
theorem record_chunk_put_item_semantics (n1 n2 : Nat) (t : List ChunkRow)
    (m1 m2 : ChunkUpload.ChunkMetadata)
    (hrid : m1.recording_id = m2.recording_id)
    (hidx : m1.chunk_index = m2.chunk_index) :
    ChunkUpload.record_chunk n2 (ChunkUpload.record_chunk n1 t m1) m2
      = ChunkUpload.record_chunk n2 t m2 ∧
    ChunkUpload.record_chunk n1 (ChunkUpload.record_chunk n1 t m1) m1
      = ChunkUpload.record_chunk n1 t m1 := by
  constructor
  · exact put_item_absorb t _ _ hrid hidx
  · exact put_item_absorb t _ _ rfl rfl

/-- C3 witness. -/
theorem record_chunk_put_item_semantics_witness :
    ChunkUpload.record_chunk 1000 (ChunkUpload.record_chunk 0 [] ChunkUpload.mFirst)
        ChunkUpload.mDup
      = ChunkUpload.record_chunk 1000 [] ChunkUpload.mDup ∧
    ChunkUpload.record_chunk 0 (ChunkUpload.record_chunk 0 [] ChunkUpload.mFirst)
        ChunkUpload.mFirst
      = ChunkUpload.record_chunk 0 [] ChunkUpload.mFirst := by
  exact ⟨(record_chunk_put_item_semantics 0 1000 [] ChunkUpload.mFirst ChunkUpload.mDup
            rfl rfl).1,
         (record_chunk_put_item_semantics 0 0 [] ChunkUpload.mFirst ChunkUpload.mFirst
            rfl rfl).2⟩

/-- C3 counterexample: a redelivery of `(r1, chunk 0)` carrying a conflicting
etag and size is not ignored — the registry keeps the conflicting values, the
originally stored attributes are lost (last-write-wins, not first-write-wins). -/
theorem record_chunk_overwrites_conflicting_metadata :
    ChunkUpload.etags
        (ChunkUpload.record_chunk 1000 (ChunkUpload.record_chunk 0 [] ChunkUpload.mFirst)
          ChunkUpload.mDup)
      = ["etag-conflicting"] ∧
    ChunkUpload.mFirst.etag = "etag-original" ∧
    (ChunkUpload.record_chunk 1000 (ChunkUpload.record_chunk 0 [] ChunkUpload.mFirst)
        ChunkUpload.mDup).map (fun r => r.fileSize) = [777] := by
  exact ⟨rfl, rfl, rfl⟩

set_option maxHeartbeats 1000000 in
/-- C10 (confirmed): the poll-transcribe and summarize stage adapters pass the
input event through unchanged apart from the fields they produce:
`check_transcribe_status` touches only `transcription_status`,
`transcript_uri` and `failure_reason`; `bedrock_summarize` touches only
`summary_s3_key`.  Every other key of the input event keeps its value. -/
theorem stage_adapters_frame_property
    (job : CheckTranscribeStatus.JobLookup) (event out : List (String × Json)) (k : String)
    (senv : BedrockSummarize.Env) (sevent sout : List (String × Json))
    (puts : List BedrockSummarize.S3Put) :
    (CheckTranscribeStatus.lambda_handler job event = .ok out →
      k ≠ "transcription_status" → k ≠ "transcript_uri" → k ≠ "failure_reason" →
      getk out k = getk event k) ∧
    (BedrockSummarize.lambda_handler senv sevent = (puts, .ok sout) →
      k ≠ "summary_s3_key" →
      getk sout k = getk sevent k) := by
  constructor
  · intro h hk1 hk2 hk3
    unfold CheckTranscribeStatus.lambda_handler at h
    repeat' split at h
    all_goals
      first
      | (exact Except.noConfusion h)
      | (injection h with h'; subst h'; simp [hk1, hk2, hk3])
  · intro h hk
    unfold BedrockSummarize.lambda_handler at h
    repeat' split at h
    all_goals injection h with h1 h2
    all_goals
      first
      | (exact Except.noConfusion h2)
      | (injection h2 with h3; subst h3; simp [hk])

namespace SessionCompletionDetector

/-- When every declared index is validated, nothing is missing. -/
theorem detect_missing_range (k : Nat) :
    detect_missing_chunks (List.range k) k = [] := by
  unfold detect_missing_chunks
  rw [List.filter_eq_nil_iff]
  intro i hi
  simp [hi]

theorem update_session_status_executions (env : DetEnv) (s : DetState)
    (rid uid v : String) (md : Option (List (String × Json))) :
    (update_session_status env s rid uid v md).executions = s.executions := rfl

theorem update_session_status_chunks (env : DetEnv) (s : DetState)
    (rid uid v : String) (md : Option (List (String × Json))) :
    (update_session_status env s rid uid v md).chunks = s.chunks := rfl

/-- With the ARN configured and both boto3 calls succeeding,
`trigger_processing` appends exactly one Step Functions execution. -/
theorem trigger_processing_ok_executions (env : DetEnv) (s : DetState)
    (rid uid : String) (k : Nat)
    (ha : env.stateMachineArn ≠ "") (h1 : env.startExecutionFails = false)
    (h2 : env.arnPersistFails = false) :
    (trigger_processing env s rid uid k).executions
      = s.executions ++ [{ name := rid ++ "_" ++ toString env.nowTs
                           input := { recordingId := rid, userId := uid, chunkCount := k
                                      triggeredAt := env.nowIso } }] := by
  unfold trigger_processing
  rw [if_neg ha, if_neg (by simp [h1]), if_neg (by simp [h2])]

theorem trigger_processing_ok_chunks (env : DetEnv) (s : DetState)
    (rid uid : String) (k : Nat)
    (ha : env.stateMachineArn ≠ "") (h1 : env.startExecutionFails = false)
    (h2 : env.arnPersistFails = false) :
    (trigger_processing env s rid uid k).chunks = s.chunks := by
  unfold trigger_processing
  rw [if_neg ha, if_neg (by simp [h1]), if_neg (by simp [h2])]

/-- When nothing is missing and the uploaded count equals the declared count,
the handler takes the dispatch branch. -/
theorem lambda_handler_dispatch (e : DetEnv) (s : DetState) (rid uid : String) (k : Nat)
    (hr : rid ≠ "") (hu : uid ≠ "")
    (hexp : get_expected_chunk_count s.meetings rid uid = some k)
    (hm : detect_missing_chunks (count_uploaded_chunks s.chunks rid) k = [])
    (hl : (count_uploaded_chunks s.chunks rid).length = k) :
    lambda_handler e s ⟨some rid, some uid⟩ =
      (trigger_processing e (update_session_status e s rid uid "ready_for_processing") rid uid k,
       [("statusCode", .num 200), ("body", .str "Session complete, processing triggered"),
        ("complete", .bool true), ("chunk_count", .num k)]) := by
  unfold lambda_handler
  simp only [Option.getD_some]
  rw [if_neg (by simp [hr, hu]), hexp]
  simp [hm, hl]

/-- When some declared index is missing, the handler records
`incomplete_chunks` with the missing indices and reports them. -/
theorem lambda_handler_missing (e : DetEnv) (s : DetState) (rid uid : String) (k : Nat)
    (hr : rid ≠ "") (hu : uid ≠ "")
    (hexp : get_expected_chunk_count s.meetings rid uid = some k)
    (hm : detect_missing_chunks (count_uploaded_chunks s.chunks rid) k ≠ []) :
    lambda_handler e s ⟨some rid, some uid⟩ =
      (update_session_status e s rid uid "incomplete_chunks"
         (some [("missing_chunk_indices",
                 natsJson (detect_missing_chunks (count_uploaded_chunks s.chunks rid) k))]),
       [("statusCode", .num 200), ("body", .str "Missing chunks detected"),
        ("complete", .bool false),
        ("missing_chunks",
         natsJson (detect_missing_chunks (count_uploaded_chunks s.chunks rid) k))]) := by
  unfold lambda_handler
  simp only [Option.getD_some]
  rw [if_neg (by simp [hr, hu]), hexp]
  simp [hm]

/-- When nothing in `0..k-1` is missing but the uploaded count differs from
the declared count (extra indices beyond the declared range), the handler
reports not-yet-complete and performs no write. -/
theorem lambda_handler_notyet (e : DetEnv) (s : DetState) (rid uid : String) (k : Nat)
    (hr : rid ≠ "") (hu : uid ≠ "")
    (hexp : get_expected_chunk_count s.meetings rid uid = some k)
    (hm : detect_missing_chunks (count_uploaded_chunks s.chunks rid) k = [])
    (hl : (count_uploaded_chunks s.chunks rid).length ≠ k) :
    lambda_handler e s ⟨some rid, some uid⟩ =
      (s, [("statusCode", .num 200), ("body", .str "Session not yet complete"),
           ("complete", .bool false),
           ("uploaded", .num (count_uploaded_chunks s.chunks rid).length),
           ("expected", .num k)]) := by
  unfold lambda_handler
  simp only [Option.getD_some]
  rw [if_neg (by simp [hr, hu]), hexp]
  simp [hm, hl]

/-- Effect of one detector invocation on a just-complete session (healthy
environment): one execution is appended, the chunks table is untouched, the
declared count survives, and the catalog status becomes
`ready_for_processing`. -/
theorem run_on_complete (e : DetEnv) (s : DetState) (rid uid : String) (k : Nat)
    (hok : envOk e) (hc : SessionJustComplete s rid uid k) :
    (lambda_handler e s ⟨some rid, some uid⟩).1.executions
        = s.executions ++ [{ name := rid ++ "_" ++ toString e.nowTs
                             input := { recordingId := rid, userId := uid, chunkCount := k
                                        triggeredAt := e.nowIso } }] ∧
    (lambda_handler e s ⟨some rid, some uid⟩).1.chunks = s.chunks ∧
    get_expected_chunk_count (lambda_handler e s ⟨some rid, some uid⟩).1.meetings rid uid
        = some k ∧
    (getk (lambda_handler e s ⟨some rid, some uid⟩).1.meetings (pkOf uid rid)).map
        MeetingItem.status = some (some "ready_for_processing") := by
  obtain ⟨hr, hu, hexp, hup⟩ := hc
  obtain ⟨ha, h1, h2⟩ := hok
  rw [lambda_handler_dispatch e s rid uid k hr hu hexp
    (by rw [hup]; exact detect_missing_range k) (by rw [hup]; simp)]
  obtain ⟨base, hbase, hbexp⟩ :
      ∃ base, getk s.meetings (pkOf uid rid) = some base ∧
        base.expectedChunkCount = some k := by
    unfold get_expected_chunk_count at hexp
    cases hb : getk s.meetings (pkOf uid rid) with
    | none => rw [hb] at hexp; cases hexp
    | some base => rw [hb] at hexp; exact ⟨base, rfl, hexp⟩
  refine ⟨?_, ?_, ?_, ?_⟩
  · rw [trigger_processing_ok_executions _ _ _ _ _ ha h1 h2,
      update_session_status_executions]
  · rw [trigger_processing_ok_chunks _ _ _ _ _ ha h1 h2, update_session_status_chunks]
  · unfold trigger_processing
    rw [if_neg ha, if_neg (by simp [h1]), if_neg (by simp [h2])]
    unfold get_expected_chunk_count update_session_status
    simp only [hbase, Option.getD_some, getk_setk_self]
    exact hbexp
  · unfold trigger_processing
    rw [if_neg ha, if_neg (by simp [h1]), if_neg (by simp [h2])]
    unfold update_session_status
    simp only [hbase, Option.getD_some, getk_setk_self]
    rfl

end SessionCompletionDetector

/-- C10 witness. -/
theorem stage_adapters_frame_property_witness :
    getk CheckTranscribeStatus.ctOut "keep_me" = getk CheckTranscribeStatus.ctEvent "keep_me" ∧
    getk BedrockSummarize.bsOut "keep_me" = getk BedrockSummarize.bsEvent "keep_me" := by
  constructor
  · exact (stage_adapters_frame_property CheckTranscribeStatus.ctJob
      CheckTranscribeStatus.ctEvent CheckTranscribeStatus.ctOut "keep_me"
      BedrockSummarize.bsEnvOk BedrockSummarize.bsEvent BedrockSummarize.bsOut
      [BedrockSummarize.bsPut]).1 (by rfl) (by decide) (by decide) (by decide)
  · exact (stage_adapters_frame_property CheckTranscribeStatus.ctJob
      CheckTranscribeStatus.ctEvent CheckTranscribeStatus.ctOut "keep_me"
      BedrockSummarize.bsEnvOk BedrockSummarize.bsEvent BedrockSummarize.bsOut
      [BedrockSummarize.bsPut]).2 (by rfl) (by decide)

open SessionCompletionDetector in
/-- C8 (corrected): when `expectedChunkCount` has not been declared, the
detector returns `complete=false` with `statusCode=200` and body
`"Recording in progress"` (there is no `reason` field in the response), makes
no status transition and no dispatch (the state is returned untouched).  The
absence is not conflated with an expected count of zero: a session declared
with `expectedChunkCount = 0` and no uploads is dispatched instead. -/
theorem absent_declaration_in_progress_noop
    (env : DetEnv) (s : DetState) (rid uid : String)
    (hr : rid ≠ "") (hu : uid ≠ "")
    (hexp : get_expected_chunk_count s.meetings rid uid = none) :
    lambda_handler env s ⟨some rid, some uid⟩ =
      (s, [("statusCode", .num 200), ("body", .str "Recording in progress"),
           ("complete", .bool false)]) ∧
    (∀ s₀ : DetState, get_expected_chunk_count s₀.meetings rid uid = some 0 →
      count_uploaded_chunks s₀.chunks rid = [] →
      env.stateMachineArn ≠ "" → env.startExecutionFails = false →
      env.arnPersistFails = false →
      (lambda_handler env s₀ ⟨some rid, some uid⟩).1.executions.length
        = s₀.executions.length + 1) := by
  constructor
  · unfold lambda_handler
    simp only [Option.getD_some]
    rw [if_neg (by simp [hr, hu]), hexp]
  · intro s₀ h0 hup ha h1 h2
    have hdisp := lambda_handler_dispatch env s₀ rid uid 0 hr hu h0
      (by rw [hup]; rfl) (by rw [hup]; rfl)
    rw [hdisp]
    rw [trigger_processing_ok_executions _ _ _ _ _ ha h1 h2,
      update_session_status_executions]
    simp

open SessionCompletionDetector in
/-- C8 witness. -/
theorem absent_declaration_in_progress_noop_witness :
    lambda_handler okEnv undeclaredState ⟨some "r1", some "u1"⟩ =
      (undeclaredState, [("statusCode", .num 200), ("body", .str "Recording in progress"),
        ("complete", .bool false)]) ∧
    (lambda_handler okEnv declaredZeroState ⟨some "r1", some "u1"⟩).1.executions.length
      = declaredZeroState.executions.length + 1 := by
  have h := absent_declaration_in_progress_noop okEnv undeclaredState "r1" "u1"
    (by decide) (by decide) (by rfl)
  have h' := absent_declaration_in_progress_noop okEnv declaredZeroState "r1" "u1"
    (by decide) (by decide)
  exact ⟨h.1, (h.2 declaredZeroState (by rfl) (by rfl) (by decide) rfl rfl)⟩

open SessionCompletionDetector in
/-- C8 counterexample: with the declaration absent, the response dict of the
source has no `reason` key at all (in particular not
`reason = "awaiting-declaration"`); it carries only `statusCode`, `body`
(`"Recording in progress"`) and `complete = false`. -/
theorem absent_declaration_reports_no_reason :
    getk (lambda_handler okEnv undeclaredState ⟨some "r1", some "u1"⟩).2 "reason" = none ∧
    getk (lambda_handler okEnv undeclaredState ⟨some "r1", some "u1"⟩).2 "complete"
      = some (.bool false) ∧
    getk (lambda_handler okEnv undeclaredState ⟨some "r1", some "u1"⟩).2 "body"
      = some (.str "Recording in progress") ∧
    (lambda_handler okEnv undeclaredState ⟨some "r1", some "u1"⟩).1 = undeclaredState := by
  exact ⟨rfl, rfl, rfl, rfl⟩

open SessionCompletionDetector in
/-- C5 (code_bug): with `PROCESSING_STATE_MACHINE_ARN` unset, the detector on
a complete session transitions the catalog to `ready_for_processing`, then
`trigger_processing` logs a warning and returns: no execution is started, no
error is recorded, no execution handle is persisted, and the 200 response
still reads "Session complete, processing triggered".  The session is left in
the ready status indefinitely — the repository's own unit test
(`test_missing_state_machine_arn_handling`) expects a raised `ValueError`
here instead.  By contrast, when `start_execution` itself raises, the
exception handler does roll back to `processing_trigger_failed` with the
error recorded, as the claim requires — the divergence is specific to the
cannot-be-attempted path. -/
theorem missing_arn_leaves_session_ready :
    ((getk (lambda_handler noArnEnv completeOneChunkState ⟨some "r1", some "u1"⟩).1.meetings
        "u1#r1").map MeetingItem.status) = some (some "ready_for_processing") ∧
    ((getk (lambda_handler noArnEnv completeOneChunkState ⟨some "r1", some "u1"⟩).1.meetings
        "u1#r1").map MeetingItem.statusMetadata) = some none ∧
    ((getk (lambda_handler noArnEnv completeOneChunkState ⟨some "r1", some "u1"⟩).1.meetings
        "u1#r1").map MeetingItem.processingExecutionArn) = some none ∧
    (lambda_handler noArnEnv completeOneChunkState ⟨some "r1", some "u1"⟩).1.executions = [] ∧
    getk (lambda_handler noArnEnv completeOneChunkState ⟨some "r1", some "u1"⟩).2 "complete"
      = some (.bool true) ∧
    getk (lambda_handler noArnEnv completeOneChunkState ⟨some "r1", some "u1"⟩).2 "body"
      = some (.str "Session complete, processing triggered") ∧
    ((getk (lambda_handler startFailEnv completeOneChunkState ⟨some "r1", some "u1"⟩).1.meetings
        "u1#r1").map MeetingItem.status) = some (some "processing_trigger_failed") ∧
    ((getk (lambda_handler startFailEnv completeOneChunkState ⟨some "r1", some "u1"⟩).1.meetings
        "u1#r1").map MeetingItem.statusMetadata)
      = some (some [("error", Json.str "boom")]) := by
  exact ⟨rfl, rfl, rfl, rfl, rfl, rfl, rfl, rfl⟩

open SessionCompletionDetector in
/-- C7 (corrected, amended): catalog status writes are not guarded by the
current status.  `update_session_status` overwrites any stored status; a
detector invocation on a just-complete session always ends in
`ready_for_processing` whatever status (including `completed` or `failed`)
the session had; and `update_catalog` sets `completed` conditioned only on
item existence.  Monotonicity away from terminal states is therefore not
enforced by the code. -/
theorem status_write_unconditional
    (env : DetEnv) (s : DetState) (rid uid v : String)
    (md : Option (List (String × Json))) (k : Nat) (nowIso pv : String)
    (meetings : List (String × MeetingItem)) (ev : List (String × Json))
    (item : MeetingItem) :
    ((getk (update_session_status env s rid uid v md).meetings (pkOf uid rid)).map
        MeetingItem.status = some (some v)) ∧
    (SessionJustComplete s rid uid k → envOk env →
      (getk (lambda_handler env s ⟨some rid, some uid⟩).1.meetings (pkOf uid rid)).map
          MeetingItem.status = some (some "ready_for_processing")) ∧
    (getk ev "recording_id" = some (.str rid) → getk ev "user_id" = some (.str uid) →
      rid ≠ "" → uid ≠ "" → getk meetings (uid ++ "#" ++ rid) = some item →
      UpdateCatalog.lambda_handler nowIso pv meetings ev =
        .ok (setk meetings (uid ++ "#" ++ rid)
          { item with
              status := some "completed"
              updatedAt := some nowIso
              completedAt := some nowIso
              pipelineVersion := some pv }, ev)) := by
  refine ⟨?_, ?_, ?_⟩
  · unfold update_session_status
    simp only [getk_setk_self, Option.map_some]
    rfl
  · intro hc hok
    exact (run_on_complete env s rid uid k hok hc).2.2.2
  · intro h1 h2 hr hu hitem
    simp only [UpdateCatalog.lambda_handler, h1, h2]
    rw [if_neg (by simp [hr, hu]), hitem]

open SessionCompletionDetector in
/-- C7 witness. -/
theorem status_write_unconditional_witness :
    ((getk (update_session_status okEnv completedStatusState "r1" "u1" "incomplete_chunks"
        none).meetings (pkOf "u1" "r1")).map MeetingItem.status
      = some (some "incomplete_chunks")) ∧
    ((getk (lambda_handler okEnv completedStatusState ⟨some "r1", some "u1"⟩).1.meetings
        (pkOf "u1" "r1")).map MeetingItem.status = some (some "ready_for_processing")) ∧
    (UpdateCatalog.lambda_handler "t9" "1.0.0"
        [("u1#r1", { status := some "failed" })]
        [("recording_id", .str "r1"), ("user_id", .str "u1")] =
      .ok (setk [("u1#r1", { status := some "failed" })] "u1#r1"
        { status := some "completed"
          updatedAt := some "t9"
          completedAt := some "t9"
          pipelineVersion := some "1.0.0" },
        [("recording_id", .str "r1"), ("user_id", .str "u1")])) := by
  have h := status_write_unconditional okEnv completedStatusState "r1" "u1"
    "incomplete_chunks" none 1 "t9" "1.0.0"
    [("u1#r1", { status := some "failed" })]
    [("recording_id", .str "r1"), ("user_id", .str "u1")]
    { status := some "failed" }
  refine ⟨h.1, ?_, ?_⟩
  · exact h.2.1 ⟨by decide, by decide, by rfl, by rfl⟩ ⟨by decide, rfl, rfl⟩
  · exact h.2.2 (by rfl) (by rfl) (by decide) (by decide) (by rfl)

open SessionCompletionDetector in
/-- C7 counterexample: a session whose catalog status is `completed` is driven
back to `ready_for_processing` (and even re-dispatched) by a late detector
invocation triggered by a duplicate upload notification — a backward
transition out of the terminal state. -/
theorem completed_session_regresses_to_ready :
    (getk completedStatusState.meetings "u1#r1").map MeetingItem.status
      = some (some "completed") ∧
    (getk (lambda_handler okEnv completedStatusState ⟨some "r1", some "u1"⟩).1.meetings
        "u1#r1").map MeetingItem.status = some (some "ready_for_processing") ∧
    (lambda_handler okEnv completedStatusState ⟨some "r1", some "u1"⟩).1.executions.length
      = 1 := by
  exact ⟨rfl, rfl, rfl⟩

open SessionCompletionDetector in
/-- C4 (corrected, amended): only the catalog read is tenant-scoped.
`get_expected_chunk_count` depends solely on the row stored under
`pk = f'{user_id}#{recording_id}'`, but `count_uploaded_chunks` queries the
chunks table by `recordingId` alone: its result is invariant under arbitrary
rewriting of the `userId` attribute of every row, i.e. the validated-index
set does not distinguish tenants at all. -/
theorem tenant_scoping_catalog_only
    (m1 m2 : List (String × MeetingItem)) (rid uid : String)
    (f : ChunkRow → String) (chunks : List ChunkRow) :
    (getk m1 (pkOf uid rid) = getk m2 (pkOf uid rid) →
      get_expected_chunk_count m1 rid uid = get_expected_chunk_count m2 rid uid) ∧
    count_uploaded_chunks (chunks.map (fun c => { c with userId := f c })) rid
      = count_uploaded_chunks chunks rid := by
  constructor
  · intro h
    unfold get_expected_chunk_count
    rw [h]
  · unfold count_uploaded_chunks
    congr 1
    rw [List.filter_map, List.map_map]
    rfl

open SessionCompletionDetector in
/-- C4 witness. -/
theorem tenant_scoping_catalog_only_witness :
    get_expected_chunk_count [("tenantA#r1", { expectedChunkCount := some 1 })] "r1" "tenantA"
      = get_expected_chunk_count
          [("tenantA#r1", { expectedChunkCount := some 1 }),
           ("tenantB#r1", { expectedChunkCount := some 9 })] "r1" "tenantA" ∧
    count_uploaded_chunks ([tenantBRow].map (fun c => { c with userId := "tenantZ" })) "r1"
      = count_uploaded_chunks [tenantBRow] "r1" := by
  exact ⟨(tenant_scoping_catalog_only
            [("tenantA#r1", { expectedChunkCount := some 1 })]
            [("tenantA#r1", { expectedChunkCount := some 1 }),
             ("tenantB#r1", { expectedChunkCount := some 9 })]
            "r1" "tenantA" (fun _ => "tenantZ") [tenantBRow]).1 (by rfl),
         (tenant_scoping_catalog_only
            [("tenantA#r1", { expectedChunkCount := some 1 })]
            [("tenantA#r1", { expectedChunkCount := some 1 }),
             ("tenantB#r1", { expectedChunkCount := some 9 })]
            "r1" "tenantA" (fun _ => "tenantZ") [tenantBRow]).2⟩

open SessionCompletionDetector in
/-- C4 counterexample: tenant `tenantA`'s completion check over session `r1`
counts the validated row written by `tenantB` (the chunks-table query carries
no tenant in its key): adding tenant B's row flips tenant A's result from
incomplete to complete — and the complete run even dispatches on the strength
of tenant B's data.  Two-run noninterference fails. -/
theorem completion_query_reads_other_tenant_rows :
    tenantBRow.userId = "tenantB" ∧
    count_uploaded_chunks crossTenantState.chunks "r1" = [0] ∧
    count_uploaded_chunks crossTenantStateNoRows.chunks "r1" = [] ∧
    getk (lambda_handler okEnv crossTenantState ⟨some "r1", some "tenantA"⟩).2 "complete"
      = some (.bool true) ∧
    getk (lambda_handler okEnv crossTenantStateNoRows ⟨some "r1", some "tenantA"⟩).2 "complete"
      = some (.bool false) ∧
    (lambda_handler okEnv crossTenantState ⟨some "r1", some "tenantA"⟩).1.executions.length
      = 1 := by
  exact ⟨rfl, rfl, rfl, rfl, rfl, rfl⟩

namespace SessionCompletionDetector

/-- Membership in the missing-index list. -/
theorem detect_missing_mem (U : List Nat) (k i : Nat) :
    i ∈ detect_missing_chunks U k ↔ i < k ∧ i ∉ U := by
  simp [detect_missing_chunks, List.mem_filter, List.mem_range]

/-- Because the chunks-table key `(recordingId, chunkIndex)` is unique, the
index list returned by `count_uploaded_chunks` has no duplicates. -/
theorem count_uploaded_nodup (chunks : List ChunkRow) (rid : String)
    (h : ChunkKeysUnique chunks) : (count_uploaded_chunks chunks rid).Nodup := by
  unfold ChunkKeysUnique at h
  unfold count_uploaded_chunks
  rw [List.Perm.nodup_iff (List.perm_insertionSort _ _)]
  have hfl : ((chunks.filter
      (fun c => c.recordingId = rid ∧ c.status = "validated")).map
        (fun c => (c.recordingId, c.chunkIndex))).Nodup := by
    refine List.Nodup.sublist ?_ h
    exact List.Sublist.map _ (List.filter_sublist chunks)
  have hrid : ∀ p ∈ (chunks.filter
      (fun c => c.recordingId = rid ∧ c.status = "validated")).map
        (fun c => (c.recordingId, c.chunkIndex)), p.1 = rid := by
    intro p hp
    rw [List.mem_map] at hp
    obtain ⟨c, hc, rfl⟩ := hp
    have := List.of_mem_filter hc
    simp only [decide_eq_true_eq] at this
    exact this.1
  have : ((chunks.filter
      (fun c => c.recordingId = rid ∧ c.status = "validated")).map
        (fun c => (c.recordingId, c.chunkIndex))).map Prod.snd |>.Nodup := by
    refine List.Nodup.map_on ?_ hfl
    intro p hp q hq hpq
    have h1 := hrid p hp
    have h2 := hrid q hq
    exact Prod.ext (h1.trans h2.symm) hpq
  rw [List.map_map] at this
  exact this

/-- Over a duplicate-free index list, the handler's completeness decision
(`missing empty` and `count equal`) holds exactly when the index set is
`{0,…,k-1}`. -/
theorem complete_decision_iff (U : List Nat) (k : Nat) (hnd : U.Nodup) :
    (detect_missing_chunks U k = [] ∧ U.length = k) ↔ U.toFinset = Finset.range k := by
  constructor
  · rintro ⟨hm, hl⟩
    have hsub : Finset.range k ⊆ U.toFinset := by
      intro i hi
      rw [Finset.mem_range] at hi
      rw [List.mem_toFinset]
      have := List.filter_eq_nil_iff.mp hm i (List.mem_range.mpr hi)
      simpa using this
    have hcard : U.toFinset.card = k := by
      rw [List.toFinset_card_of_nodup hnd, hl]
    exact (Finset.eq_of_subset_of_card_le hsub
      (by rw [hcard, Finset.card_range])).symm
  · intro ht
    constructor
    · unfold detect_missing_chunks
      rw [List.filter_eq_nil_iff]
      intro i hi
      have hik : i < k := List.mem_range.mp hi
      have : i ∈ U.toFinset := by
        rw [ht, Finset.mem_range]
        exact hik
      rw [List.mem_toFinset] at this
      simp [this]
    · have := congrArg Finset.card ht
      rw [List.toFinset_card_of_nodup hnd, Finset.card_range] at this
      exact this

end SessionCompletionDetector

open SessionCompletionDetector in
/-- C2 (confirmed): with `expectedChunkCount = k` declared and the table-key
invariant, the detector answers `complete=true` exactly when the validated
index set is `{0,…,k-1}`; every strict subset is answered incomplete together
with its (nonempty) missing-index list; and a set covering `0..k-1` with an
extra out-of-range index is also answered not complete. -/
theorem completeness_iff_exact_range
    (env : DetEnv) (s : DetState) (rid uid : String) (k : Nat)
    (hr : rid ≠ "") (hu : uid ≠ "")
    (hexp : get_expected_chunk_count s.meetings rid uid = some k)
    (hkeys : ChunkKeysUnique s.chunks) :
    ((getk (lambda_handler env s ⟨some rid, some uid⟩).2 "complete" = some (.bool true))
      ↔ (count_uploaded_chunks s.chunks rid).toFinset = Finset.range k) ∧
    ((count_uploaded_chunks s.chunks rid).toFinset ⊂ Finset.range k →
      getk (lambda_handler env s ⟨some rid, some uid⟩).2 "missing_chunks"
        = some (natsJson (detect_missing_chunks (count_uploaded_chunks s.chunks rid) k)) ∧
      detect_missing_chunks (count_uploaded_chunks s.chunks rid) k ≠ [] ∧
      (∀ i, i ∈ detect_missing_chunks (count_uploaded_chunks s.chunks rid) k ↔
        (i ∈ Finset.range k ∧ i ∉ (count_uploaded_chunks s.chunks rid).toFinset))) ∧
    (Finset.range k ⊆ (count_uploaded_chunks s.chunks rid).toFinset →
      (count_uploaded_chunks s.chunks rid).toFinset ≠ Finset.range k →
      getk (lambda_handler env s ⟨some rid, some uid⟩).2 "complete"
        = some (.bool false)) := by
  have hnd := count_uploaded_nodup s.chunks rid hkeys
  refine ⟨⟨?_, ?_⟩, ?_, ?_⟩
  · intro hcomp
    by_cases hm : detect_missing_chunks (count_uploaded_chunks s.chunks rid) k = []
    · by_cases hl : (count_uploaded_chunks s.chunks rid).length = k
      · exact (complete_decision_iff _ k hnd).mp ⟨hm, hl⟩
      · rw [lambda_handler_notyet env s rid uid k hr hu hexp hm hl] at hcomp
        simp [getk] at hcomp
    · rw [lambda_handler_missing env s rid uid k hr hu hexp hm] at hcomp
      simp [getk] at hcomp
  · intro ht
    obtain ⟨hm, hl⟩ := (complete_decision_iff _ k hnd).mpr ht
    rw [lambda_handler_dispatch env s rid uid k hr hu hexp hm hl]
    rfl
  · intro hss
    obtain ⟨i, hik, hiU⟩ : ∃ i, i ∈ Finset.range k ∧
        i ∉ (count_uploaded_chunks s.chunks rid).toFinset := by
      obtain ⟨i, hi1, hi2⟩ := Finset.exists_of_ssubset hss
      exact ⟨i, hi1, hi2⟩
    have hm : detect_missing_chunks (count_uploaded_chunks s.chunks rid) k ≠ [] := by
      apply List.ne_nil_of_mem (a := i)
      rw [detect_missing_mem]
      rw [Finset.mem_range] at hik
      rw [List.mem_toFinset] at hiU
      exact ⟨hik, hiU⟩
    rw [lambda_handler_missing env s rid uid k hr hu hexp hm]
    refine ⟨rfl, hm, ?_⟩
    intro j
    rw [detect_missing_mem, Finset.mem_range, List.mem_toFinset]
  · intro hsup hne
    have hm : detect_missing_chunks (count_uploaded_chunks s.chunks rid) k = [] := by
      unfold detect_missing_chunks
      rw [List.filter_eq_nil_iff]
      intro i hi
      have : i ∈ (count_uploaded_chunks s.chunks rid).toFinset :=
        hsup (by rw [Finset.mem_range]; exact List.mem_range.mp hi)
      rw [List.mem_toFinset] at this
      simp [this]
    have hl : (count_uploaded_chunks s.chunks rid).length ≠ k := by
      intro hl
      exact hne ((complete_decision_iff _ k hnd).mp ⟨hm, hl⟩)
    rw [lambda_handler_notyet env s rid uid k hr hu hexp hm hl]
    rfl

open SessionCompletionDetector in
/-- C2 witness. -/
theorem completeness_iff_exact_range_witness :
    getk (lambda_handler okEnv completeOneChunkState ⟨some "r1", some "u1"⟩).2 "complete"
      = some (.bool true) := by
  exact (completeness_iff_exact_range okEnv completeOneChunkState "r1" "u1" 1
    (by decide) (by decide) (by rfl)
    (by unfold ChunkKeysUnique; decide)).1.mpr (by decide)

open SessionCompletionDetector in
/-- C1 (corrected, amended): the detector performs no duplicate suppression.
Its status write is unconditional (no compare-and-swap, no check of the
current status), so every invocation that observes a complete session takes
the dispatch branch and starts its own Step Functions execution: N serialized
invocations on a just-complete session start exactly N executions (instead of
the at-most-one the spec requires), and none of them reports
`dispatched=false`. -/
theorem every_complete_invocation_dispatches
    (envs : List DetEnv) (s : DetState) (rid uid : String) (k : Nat)
    (hok : ∀ e ∈ envs, envOk e) (hc : SessionJustComplete s rid uid k) :
    (runSeq envs ⟨some rid, some uid⟩ s).executions.length
      = s.executions.length + envs.length := by
  induction envs generalizing s with
  | nil => simp [runSeq]
  | cons e rest ih =>
    have hoke : envOk e := hok e (by simp)
    have hrest : ∀ e' ∈ rest, envOk e' := fun e' he' => hok e' (by simp [he'])
    obtain ⟨hex, hch, hexp', _⟩ := run_on_complete e s rid uid k hoke hc
    have hc' : SessionJustComplete (lambda_handler e s ⟨some rid, some uid⟩).1 rid uid k :=
      ⟨hc.1, hc.2.1, hexp', by rw [hch]; exact hc.2.2.2⟩
    show (runSeq rest ⟨some rid, some uid⟩ (lambda_handler e s ⟨some rid, some uid⟩).1).executions.length = _
    rw [ih _ hrest hc', hex]
    simp only [List.length_append, List.length_cons, List.length_nil]
    omega

open SessionCompletionDetector in
/-- C1 witness. -/
theorem every_complete_invocation_dispatches_witness :
    (runSeq [okEnv] ⟨some "r1", some "u1"⟩ completeOneChunkState).executions.length
      = completeOneChunkState.executions.length + 1 := by
  exact every_complete_invocation_dispatches [okEnv] completeOneChunkState "r1" "u1" 1
    (by intro e he
        simp only [List.mem_singleton] at he
        subst he
        exact ⟨by decide, rfl, rfl⟩)
    ⟨by decide, by decide, by rfl, by rfl⟩

open SessionCompletionDetector in
/-- C1 counterexample: two detector invocations on session `u1/r1`, which has
just reached full completeness, one after the other (a legal schedule of two
concurrent invocations): both dispatch, and two distinct Step Functions
executions exist afterwards — not exactly one orchestration start, and no
invocation was suppressed with `dispatched=false`. -/
theorem duplicate_invocation_double_dispatch :
    (runSeq [okEnv, okEnv2] ⟨some "r1", some "u1"⟩ completeOneChunkState).executions.length
      = 2 ∧
    (runSeq [okEnv, okEnv2] ⟨some "r1", some "u1"⟩
        completeOneChunkState).executions.map Execution.name = ["r1_1", "r1_2"] ∧
    getk (lambda_handler okEnv2
        (lambda_handler okEnv completeOneChunkState ⟨some "r1", some "u1"⟩).1
        ⟨some "r1", some "u1"⟩).2 "complete" = some (.bool true) ∧
    getk (lambda_handler okEnv2
        (lambda_handler okEnv completeOneChunkState ⟨some "r1", some "u1"⟩).1
        ⟨some "r1", some "u1"⟩).2 "dispatched" = none := by
  exact ⟨rfl, rfl, rfl, rfl⟩

open BedrockSummarize in
/-- C6 (confirmed): whenever the Summarizing stage fails — in particular when
the model text is not valid JSON (`claudeJson = none`, the stage raises
`ValueError("Invalid JSON from Claude")`, the spec's `SummaryFormatError`) or
when `parse_claude_response` rejects the structure — the invocation performs
no S3 summary upload (and this handler writes no catalog record at all): the
model output is never coerced into a guessed artifact. -/
theorem summary_parse_failure_no_partial_write
    (env : BedrockSummarize.Env) (event : List (String × Json)) (rid e : String)
    (puts : List S3Put) (res : Except String (List (String × Json)))
    (h : lambda_handler env event = (puts, res)) :
    (exceptOk res = false → puts = []) ∧
    (env.claudeJson = none → puts = [] ∧ exceptOk res = false) ∧
    (fieldStr event "recording_id" = some rid →
      parse_claude_response env env.claudeJson rid = .error e →
      puts = [] ∧ exceptOk res = false) := by
  unfold lambda_handler at h
  repeat' split at h
  all_goals injection h with h1 h2
  all_goals subst h1
  all_goals subst h2
  all_goals
    first
      | exact ⟨fun _ => rfl, fun _ => ⟨rfl, rfl⟩, fun _ _ => ⟨rfl, rfl⟩⟩
      | refine ⟨fun hres => by simp [exceptOk] at hres,
                fun hcj => by simp_all [parse_claude_response],
                fun hf hp => by simp_all⟩

open BedrockSummarize in
/-- C6 witness. -/
theorem summary_parse_failure_no_partial_write_witness :
    (lambda_handler bsEnvBadJson bsEvent).1 = [] ∧
    exceptOk (lambda_handler bsEnvBadJson bsEvent).2 = false := by
  exact (summary_parse_failure_no_partial_write bsEnvBadJson bsEvent "r1" "msg"
    (lambda_handler bsEnvBadJson bsEvent).1 (lambda_handler bsEnvBadJson bsEvent).2
    rfl).2.1 rfl

namespace ChunkUpload

theorem stripPre_append (p s : List Char) : stripPre p (p ++ s) = some s := by
  induction p with
  | nil => rfl
  | cons c cs ih => simp [stripPre, ih]

theorem stripPre_sound (p : List Char) : ∀ s s' : List Char,
    stripPre p s = some s' → s = p ++ s' := by
  induction p with
  | nil =>
    intro s s' h
    unfold stripPre at h
    cases h
    rfl
  | cons c cs ih =>
    intro s s' h
    cases s with
    | nil => cases h
    | cons d ds =>
      unfold stripPre at h
      by_cases hd : d = c
      · rw [if_pos hd] at h
        subst hd
        rw [List.cons_append, ih ds s' h]
      · rw [if_neg hd] at h
        cases h

theorem stripPre_cons_ne (c d : Char) (p s : List Char) (h : d ≠ c) :
    stripPre (c :: p) (d :: s) = none := by
  simp [stripPre, h]

theorem stripPre_cons_self (c : Char) (ps ss : List Char) :
    stripPre (c :: ps) (c :: ss) = stripPre ps ss := by
  simp [stripPre]

/-- Failure of the literal match when the head characters disagree (stated
with equations so it can rewrite scrutinees that are not in cons form). -/
theorem stripPre_eq_none_of (p s : List Char) (c d : Char) (ps ss : List Char)
    (hp : p = c :: ps) (hs : s = d :: ss) (hne : d ≠ c) : stripPre p s = none := by
  subst hp
  subst hs
  exact stripPre_cons_ne c d ps ss hne

/-- Failure of the literal match when the pattern's first character does not
occur in the input at all. -/
theorem stripPre_none_of_head_notMem (p s : List Char) (c : Char) (ps : List Char)
    (hp : p = c :: ps) (h : c ∉ s) : stripPre p s = none := by
  subst hp
  cases s with
  | nil => rfl
  | cons d ds =>
    have hne : d ≠ c := fun hdc => h (by rw [← hdc]; exact List.mem_cons_self d ds)
    exact stripPre_cons_ne c d ps ds hne

theorem findSomeRev_eq {α : Type} (f : Nat → Option α) (n m : Nat) (v : α)
    (h1 : 1 ≤ m) (hm : f m = some v) (hmn : m ≤ n)
    (hnone : ∀ j, m < j → j ≤ n → f j = none) :
    findSomeRev f n = some v := by
  induction n with
  | zero => omega
  | succ n ih =>
    unfold findSomeRev
    by_cases hm' : m = n + 1
    · subst hm'
      rw [hm]
    · rw [hnone (n + 1) (by omega) (by omega)]
      exact ih (by omega) (fun j hj1 hj2 => hnone j hj1 (by omega))

theorem findSomeRev_none {α : Type} (f : Nat → Option α) (n : Nat)
    (h : ∀ j, 1 ≤ j → j ≤ n → f j = none) : findSomeRev f n = none := by
  induction n with
  | zero => rfl
  | succ n ih =>
    unfold findSomeRev
    rw [h (n + 1) (by omega) (by omega)]
    exact ih (fun j hj1 hj2 => h j hj1 (by omega))

theorem digit_ne_slash (c : Char) (h : c.isDigit = true) : c ≠ '/' := by
  intro hc
  subst hc
  exact absurd h (by decide)

/-- `(.+)/chunk_(\d{3})\.mp4` cannot match at any split of an input without a
slash: the literal `/chunk_` needs one. -/
theorem matchGroup2_none_of_no_slash (l : List Char) (rlen : Nat) (h : '/' ∉ l) :
    matchGroup2 l rlen = none := by
  unfold matchGroup2
  dsimp only
  split
  · rw [stripPre_none_of_head_notMem "/chunk_".data (l.drop rlen) '/' "chunk_".data rfl
      (fun hmem => h (List.drop_subset rlen l hmem))]
  · rfl

/-- The tail of the literal `/chunk_ddd.mp4` block contains no slash. -/
theorem chunk_block_tail_no_slash (d1 d2 d3 : Char)
    (hd1 : d1.isDigit = true) (hd2 : d2.isDigit = true) (hd3 : d3.isDigit = true) :
    '/' ∉ ("chunk_".data ++ ([d1, d2, d3] ++ ".mp4".data)) := by
  intro hmem
  rw [List.mem_append, List.mem_append] at hmem
  rcases hmem with h | h | h
  · exact absurd h (by decide)
  · simp only [List.mem_cons, List.not_mem_nil, or_false] at h
    rcases h with h | h | h
    · exact digit_ne_slash d1 hd1 h.symm
    · exact digit_ne_slash d2 hd2 h.symm
    · exact digit_ne_slash d3 hd3 h.symm
  · exact absurd h (by decide)

/-- `(.+)/chunk_(\d{3})\.mp4` matches the exact block
`r/chunk_d₁d₂d₃.mp4` with the group at its intended length. -/
theorem matchGroup2_at_exact (r : List Char) (d1 d2 d3 : Char)
    (hr : r ≠ []) (hrc : ∀ c ∈ r, c ≠ '\n')
    (hd1 : d1.isDigit = true) (hd2 : d2.isDigit = true) (hd3 : d3.isDigit = true) :
    matchGroup2 (r ++ ("/chunk_".data ++ ([d1, d2, d3] ++ ".mp4".data))) r.length
      = some (r, 100 * digitVal d1 + 10 * digitVal d2 + digitVal d3) := by
  unfold matchGroup2
  rw [List.take_left, List.drop_left]
  rw [if_pos ⟨List.length_pos.mpr hr, by
    rw [List.all_eq_true]
    intro c hc
    simpa [dotChar] using hrc c hc⟩]
  rw [stripPre_append]
  have hmp4 : stripPre ".mp4".data ".mp4".data = some [] := by
    have := stripPre_append ".mp4".data []
    rwa [List.append_nil] at this
  simp [hd1, hd2, hd3, hmp4]

/-- All longer first-group candidates fail on that block: the only slash sits
right after `r`, and `.+` must leave a `/chunk_` literal behind it. -/
theorem matchGroup2_fail_high (r : List Char) (d1 d2 d3 : Char)
    (hd1 : d1.isDigit = true) (hd2 : d2.isDigit = true) (hd3 : d3.isDigit = true)
    (j : Nat) (hj : r.length < j) :
    matchGroup2 (r ++ ("/chunk_".data ++ ([d1, d2, d3] ++ ".mp4".data))) j = none := by
  unfold matchGroup2
  dsimp only
  split
  · obtain ⟨i, rfl⟩ : ∃ i, j = r.length + (i + 1) := ⟨j - r.length - 1, by omega⟩
    rw [List.drop_append]
    have hdrop : ("/chunk_".data ++ ([d1, d2, d3] ++ ".mp4".data)).drop (i + 1)
        = ("chunk_".data ++ ([d1, d2, d3] ++ ".mp4".data)).drop i := rfl
    rw [stripPre_none_of_head_notMem "/chunk_".data _ '/' "chunk_".data rfl
      (by
        rw [hdrop]
        exact fun hmem => chunk_block_tail_no_slash d1 d2 d3 hd1 hd2 hd3
          (List.drop_subset i _ hmem))]
  · rfl

/-- The greedy search for the second group over the block `r/chunk_ddd.mp4`
returns `r` and the digit value. -/
theorem findSomeRev_group2 (r : List Char) (d1 d2 d3 : Char)
    (hr : r ≠ []) (hrc : ∀ c ∈ r, c ≠ '\n')
    (hd1 : d1.isDigit = true) (hd2 : d2.isDigit = true) (hd3 : d3.isDigit = true) :
    findSomeRev (matchGroup2 (r ++ ("/chunk_".data ++ ([d1, d2, d3] ++ ".mp4".data))))
        (r ++ ("/chunk_".data ++ ([d1, d2, d3] ++ ".mp4".data))).length
      = some (r, 100 * digitVal d1 + 10 * digitVal d2 + digitVal d3) := by
  apply findSomeRev_eq _ _ r.length _ (List.length_pos.mpr hr)
    (matchGroup2_at_exact r d1 d2 d3 hr hrc hd1 hd2 hd3)
    (by simp)
    (fun j hj1 _ => matchGroup2_fail_high r d1 d2 d3 hd1 hd2 hd3 j hj1)

/-- The literal `/chunks/` cannot match starting strictly inside itself. -/
theorem stripPre_chunks_inner_fail (i : Nat) (h1 : 1 ≤ i) (h2 : i ≤ 6) (z : List Char) :
    stripPre "/chunks/".data ("/chunks/".data.drop i ++ z) = none := by
  interval_cases i
  · exact stripPre_eq_none_of _ _ '/' 'c' "chunks/".data ("hunks/".data ++ z) rfl rfl (by decide)
  · exact stripPre_eq_none_of _ _ '/' 'h' "chunks/".data ("unks/".data ++ z) rfl rfl (by decide)
  · exact stripPre_eq_none_of _ _ '/' 'u' "chunks/".data ("nks/".data ++ z) rfl rfl (by decide)
  · exact stripPre_eq_none_of _ _ '/' 'n' "chunks/".data ("ks/".data ++ z) rfl rfl (by decide)
  · exact stripPre_eq_none_of _ _ '/' 'k' "chunks/".data ("s/".data ++ z) rfl rfl (by decide)
  · exact stripPre_eq_none_of _ _ '/' 's' "chunks/".data ("/".data ++ z) rfl rfl (by decide)

/-- The literal `/chunks/` does not match against `/chunk_…`
(mismatch at `s` versus `_`). -/
theorem stripPre_chunks_at_chunk (z : List Char) :
    stripPre "/chunks/".data ("/chunk_".data ++ z) = none := by
  have h1 : "/chunks/".data = '/':: 'c':: 'h':: 'u':: 'n':: 'k':: 's':: '/'::[] := rfl
  have h2 : "/chunk_".data = '/':: 'c':: 'h':: 'u':: 'n':: 'k':: '_'::[] := rfl
  rw [h1, h2]
  simp [stripPre, List.cons_append]

/-- `(.+)/chunks/(.+)/chunk_(\d{3})\.mp4` matches the well-formed key body with
the first group at its intended length, yielding the encoded triple. -/
theorem matchGroup1_at_exact (u r : List Char) (d1 d2 d3 : Char)
    (hu : u ≠ []) (huc : ∀ c ∈ u, c ≠ '\n')
    (hr : r ≠ []) (hrc : ∀ c ∈ r, c ≠ '\n')
    (hd1 : d1.isDigit = true) (hd2 : d2.isDigit = true) (hd3 : d3.isDigit = true) :
    matchGroup1
        (u ++ ("/chunks/".data ++ (r ++ ("/chunk_".data ++ ([d1, d2, d3] ++ ".mp4".data)))))
        u.length
      = some (u, r, 100 * digitVal d1 + 10 * digitVal d2 + digitVal d3) := by
  unfold matchGroup1
  rw [List.take_left, List.drop_left]
  rw [if_pos ⟨List.length_pos.mpr hu, by
    rw [List.all_eq_true]
    intro c hc
    simpa [dotChar] using huc c hc⟩]
  rw [stripPre_append]
  simp only []
  rw [findSomeRev_group2 r d1 d2 d3 hr hrc hd1 hd2 hd3]

/-- Every first-group length beyond the tenant segment fails on the
well-formed key body: the candidate must be followed by the literal
`/chunks/`, which occurs nowhere later (the session segment is slash-free and
the `/chunk_` block differs at its seventh character). -/
theorem matchGroup1_fail_high (u r : List Char) (d1 d2 d3 : Char)
    (hrc : ∀ c ∈ r, c ≠ '/')
    (hd1 : d1.isDigit = true) (hd2 : d2.isDigit = true) (hd3 : d3.isDigit = true)
    (j : Nat) (hj : u.length < j) :
    matchGroup1
        (u ++ ("/chunks/".data ++ (r ++ ("/chunk_".data ++ ([d1, d2, d3] ++ ".mp4".data)))))
        j
      = none := by
  unfold matchGroup1
  dsimp only
  split
  · obtain ⟨i, rfl, hi1⟩ : ∃ i, j = u.length + i ∧ 1 ≤ i :=
      ⟨j - u.length, by omega, by omega⟩
    rw [List.drop_append]
    by_cases hA : i ≤ 6
    · rw [List.drop_append_of_le_length
        (by
          have h8 : (['/', 'c', 'h', 'u', 'n', 'k', 's', '/'] : List Char).length = 8 := rfl
          omega)]
      rw [stripPre_chunks_inner_fail i hi1 hA]
    · by_cases hB : i = 7
      · subst hB
        rw [List.drop_append_of_le_length
          (by
            have h8 : (['/', 'c', 'h', 'u', 'n', 'k', 's', '/'] : List Char).length = 8 := rfl
            omega)]
        have hstep : stripPre "/chunks/".data
            ("/chunks/".data.drop 7 ++
              (r ++ ("/chunk_".data ++ ([d1, d2, d3] ++ ".mp4".data))))
            = stripPre "chunks/".data
                (r ++ ("/chunk_".data ++ ([d1, d2, d3] ++ ".mp4".data))) := rfl
        rw [hstep]
        cases hstrip : stripPre "chunks/".data
            (r ++ ("/chunk_".data ++ ([d1, d2, d3] ++ ".mp4".data))) with
        | none => rfl
        | some rest2 =>
          have hsound := stripPre_sound "chunks/".data _ _ hstrip
          have hnoslash : '/' ∉ rest2 := by
            have h0 : r.count '/' = 0 :=
              List.count_eq_zero.mpr (fun hmem => hrc '/' hmem rfl)
            have hds : ([d1, d2, d3].count '/') = 0 := by
              apply List.count_eq_zero.mpr
              intro hmem
              simp only [List.mem_cons, List.not_mem_nil, or_false] at hmem
              rcases hmem with h | h | h
              · exact digit_ne_slash d1 hd1 h.symm
              · exact digit_ne_slash d2 hd2 h.symm
              · exact digit_ne_slash d3 hd3 h.symm
            have hcT : (r ++ ("/chunk_".data ++ ([d1, d2, d3] ++ ".mp4".data))).count '/'
                = 1 := by
              rw [List.count_append, List.count_append, List.count_append, h0, hds]
              rfl
            rw [hsound, List.count_append] at hcT
            have hc7 : ("chunks/".data).count '/' = 1 := by decide
            rw [hc7] at hcT
            exact List.count_eq_zero.mp (by omega)
          simp only []
          rw [findSomeRev_none _ _
            (fun jj _ _ => matchGroup2_none_of_no_slash rest2 jj hnoslash)]
      · obtain ⟨t, rfl⟩ : ∃ t, i = (['/', 'c', 'h', 'u', 'n', 'k', 's', '/'] : List Char).length + t :=
          ⟨i - 8, by
            have h8 : (['/', 'c', 'h', 'u', 'n', 'k', 's', '/'] : List Char).length = 8 := rfl
            omega⟩
        rw [List.drop_append]
        by_cases hC : t < r.length
        · rw [List.drop_append_of_le_length (le_of_lt hC)]
          have hhead : r.drop t ++ ("/chunk_".data ++ ([d1, d2, d3] ++ ".mp4".data))
              = r[t] :: (r.drop (t + 1) ++
                  ("/chunk_".data ++ ([d1, d2, d3] ++ ".mp4".data))) := by
            rw [List.drop_eq_getElem_cons hC, List.cons_append]
          rw [stripPre_eq_none_of _ _ '/' (r[t]) "chunks/".data _ rfl hhead
            (hrc _ (List.getElem_mem hC))]
        · obtain ⟨w, rfl⟩ : ∃ w, t = r.length + w := ⟨t - r.length, by omega⟩
          rw [List.drop_append]
          cases w with
          | zero =>
            rw [List.drop_zero, stripPre_chunks_at_chunk]
          | succ w' =>
            have hdropw : ("/chunk_".data ++ ([d1, d2, d3] ++ ".mp4".data)).drop (w' + 1)
                = ("chunk_".data ++ ([d1, d2, d3] ++ ".mp4".data)).drop w' := rfl
            rw [stripPre_none_of_head_notMem "/chunks/".data _ '/' "chunks/".data rfl
              (by
                rw [hdropw]
                exact fun hmem => chunk_block_tail_no_slash d1 d2 d3 hd1 hd2 hd3
                  (List.drop_subset w' _ hmem))]
  · rfl

/-- The anchored regex match on the well-formed key returns the encoded triple. -/
theorem regexMatchKey_wellformed (u r : List Char) (d1 d2 d3 : Char)
    (hu : u ≠ []) (huc : ∀ c ∈ u, c ≠ '\n')
    (hr : r ≠ []) (hrc : ∀ c ∈ r, c ≠ '\n' ∧ c ≠ '/')
    (hd1 : d1.isDigit = true) (hd2 : d2.isDigit = true) (hd3 : d3.isDigit = true) :
    regexMatchKey
        ("users/".data ++
          (u ++ ("/chunks/".data ++ (r ++ ("/chunk_".data ++ ([d1, d2, d3] ++ ".mp4".data))))))
      = some (u, r, 100 * digitVal d1 + 10 * digitVal d2 + digitVal d3) := by
  unfold regexMatchKey
  rw [stripPre_append]
  exact findSomeRev_eq _ _ u.length _ (List.length_pos.mpr hu)
    (matchGroup1_at_exact u r d1 d2 d3 hu huc hr (fun c hc => (hrc c hc).1) hd1 hd2 hd3)
    (by simp)
    (fun j hj1 _ =>
      matchGroup1_fail_high u r d1 d2 d3 (fun c hc => (hrc c hc).2) hd1 hd2 hd3 j hj1)

/-- A key that is exactly `users/{u}/chunks/{r}/chunk_{d₁d₂d₃}.mp4`, with
slash-free newline-free nonempty `u` and `r` and decimal digits, parses into
exactly the triple encoded in its path segments. -/
theorem parse_s3_key_wellformed (u r : String) (d1 d2 d3 : Char)
    (hu : u.data ≠ []) (huc : ∀ c ∈ u.data, c ≠ '\n' ∧ c ≠ '/')
    (hr : r.data ≠ []) (hrc : ∀ c ∈ r.data, c ≠ '\n' ∧ c ≠ '/')
    (hd1 : d1.isDigit = true) (hd2 : d2.isDigit = true) (hd3 : d3.isDigit = true) :
    parse_s3_key
        ("users/" ++ u ++ "/chunks/" ++ r ++ "/chunk_" ++ String.mk [d1, d2, d3] ++ ".mp4")
      = some (u, r, 100 * digitVal d1 + 10 * digitVal d2 + digitVal d3) := by
  unfold parse_s3_key
  have hdata :
      ("users/" ++ u ++ "/chunks/" ++ r ++ "/chunk_" ++ String.mk [d1, d2, d3] ++ ".mp4").data
      = "users/".data ++
          (u.data ++
            ("/chunks/".data ++
              (r.data ++ ("/chunk_".data ++ ([d1, d2, d3] ++ ".mp4".data))))) := by
    simp [String.data_append, List.append_assoc]
  rw [hdata]
  rw [regexMatchKey_wellformed u.data r.data d1 d2 d3 hu (fun c hc => (huc c hc).1)
    hr hrc hd1 hd2 hd3]

end ChunkUpload

open ChunkUpload in
/-- C9 (corrected, amended): a key rejected by the pattern is logged and
answered with status 200 — the notification is dropped without any Segment
Registry write or Completion Detector invocation, and not retried; and a key
of exactly the documented convention parses into exactly its encoded
`(tenantId, sessionId, chunkIndex)` triple.  However, `re.match` only
requires a prefix match and the two `.+` groups also match slashes, so
acceptance is NOT limited to keys of the convention (see the
trailing-suffix counterexample). -/
theorem key_parsing_prefix_match_semantics
    (env : ChunkUpload.Env) (s : ChunkUpload.State) (event : UploadEvent) (key : String)
    (u r : String) (d1 d2 d3 : Char) :
    (event.objectKey = some key → key ≠ "" → parse_s3_key key = none →
      ChunkUpload.lambda_handler env s event = (s, ⟨200, "Invalid key format"⟩)) ∧
    (u.data ≠ [] → r.data ≠ [] →
      (∀ c ∈ u.data, c ≠ '\n' ∧ c ≠ '/') → (∀ c ∈ r.data, c ≠ '\n' ∧ c ≠ '/') →
      d1.isDigit = true → d2.isDigit = true → d3.isDigit = true →
      parse_s3_key
          ("users/" ++ u ++ "/chunks/" ++ r ++ "/chunk_" ++ String.mk [d1, d2, d3] ++ ".mp4")
        = some (u, r, 100 * digitVal d1 + 10 * digitVal d2 + digitVal d3)) := by
  constructor
  · intro hk hne hp
    unfold ChunkUpload.lambda_handler
    rw [hk]
    simp only [hp, if_neg hne]
  · intro h1 h2 h3 h4 h5 h6 h7
    exact parse_s3_key_wellformed u r d1 d2 d3 h1 h3 h2 h4 h5 h6 h7

open ChunkUpload in
/-- C9 witness. -/
theorem key_parsing_prefix_match_semantics_witness :
    ChunkUpload.lambda_handler cuEnv ⟨[], []⟩
        ⟨"bkt", some "users/zz", 10, "e", some "t"⟩
      = (⟨[], []⟩, ⟨200, "Invalid key format"⟩) ∧
    parse_s3_key "users/u1/chunks/r1/chunk_007.mp4" = some ("u1", "r1", 7) := by
  constructor
  · exact (key_parsing_prefix_match_semantics cuEnv ⟨[], []⟩
      ⟨"bkt", some "users/zz", 10, "e", some "t"⟩ "users/zz"
      "u1" "r1" '0' '0' '7').1 rfl (by decide) (by rfl)
  · have h := (key_parsing_prefix_match_semantics cuEnv ⟨[], []⟩
      ⟨"bkt", some "users/zz", 10, "e", some "t"⟩ "users/zz"
      "u1" "r1" '0' '0' '7').2 (by decide) (by decide) (by decide) (by decide)
      (by decide) (by decide) (by decide)
    exact h

open ChunkUpload in
/-- C9 counterexample: the key `users/a/chunks/b/chunk_001.mp4x` does NOT
match the documented convention (it has trailing characters after `.mp4`),
yet `re.match` accepts it as a prefix match: the listener records the chunk
and invokes the Completion Detector instead of dropping the notification
with `MalformedKey`. -/
theorem trailing_suffix_key_accepted :
    parse_s3_key "users/a/chunks/b/chunk_001.mp4x" = some ("a", "b", 1) ∧
    (ChunkUpload.lambda_handler cuEnv ⟨[], []⟩
        ⟨"bkt", some "users/a/chunks/b/chunk_001.mp4x", 10, "e", some "t"⟩).2
      = ⟨200, "Chunk processed"⟩ ∧
    (ChunkUpload.lambda_handler cuEnv ⟨[], []⟩
        ⟨"bkt", some "users/a/chunks/b/chunk_001.mp4x", 10, "e", some "t"⟩).1.chunks.length
      = 1 ∧
    (ChunkUpload.lambda_handler cuEnv ⟨[], []⟩
        ⟨"bkt", some "users/a/chunks/b/chunk_001.mp4x", 10, "e", some "t"⟩).1.detectorInvocations
      = [("b", "a")] := by
  exact ⟨rfl, rfl, rfl, rfl⟩

end MeetingRecorder
